import Mathlib

/-!
Verification of the slope-stability analysis engine of this repository
(`src/slope_stability.py`).

The Python kernel is embedded shallowly over the real numbers:
* floating point numbers become `ℝ` (so every value is "finite": the
  `np.isfinite` guard of the source is vacuously true in this model, and
  division by zero follows Mathlib's `x / 0 = 0` convention);
* numpy arrays become `List ℝ`, boolean masks become `List.filter`;
* functions returning `None` on invalid input return `Option` values.

Section 1 contains the embedding (one Lean definition per stage of
`bishop_fs_for_circle`, plus `search_critical_circle` and the input
validation performed by `SlopeStabilityApp.run_analysis`), section 2
general-purpose list lemmas, section 3 evaluation lemmas for concrete
trial circles, and section 4 the claim theorems.
-/

set_option maxHeartbeats 1600000

namespace SlopeStability

/-- `math.radians`: degrees to radians. -/
noncomputable def rad (deg : ℝ) : ℝ := deg * Real.pi / 180

/-- `slope_surface_y(x, H, beta_deg)`: piecewise ground surface.
`L = H / tan(beta)`; `y = H` for `x < 0`, the line `H - (H/L)*x` for
`0 ≤ x ≤ L`, and `0` beyond the toe. -/
noncomputable def slopeSurfaceY (x H betaDeg : ℝ) : ℝ :=
  let beta := rad betaDeg
  let L := H / Real.tan beta
  if x < 0 then H
  else if x ≤ L then H - (H / L) * x
  else 0

/-- `np.linspace(a, b, n)`: `n` evenly spaced points from `a` to `b`
(endpoints included; `[a]` for `n = 1`, `[]` for `n = 0`). -/
noncomputable def linspace (a b : ℝ) (n : ℕ) : List ℝ :=
  if n = 0 then []
  else if n = 1 then [a]
  else (List.range n).map (fun i : ℕ => a + (b - a) * (i : ℝ) / ((n : ℝ) - 1))

/-- One vertical slice: `height`, weight `W = gamma*height*b`, base
inclination `alpha` and base length `l = b / cos(alpha)` (the four
parallel arrays `heights`, `Ws`, `alphas`, `ls` of the source). -/
structure Slice where
  height : ℝ
  W : ℝ
  alpha : ℝ
  l : ℝ

/-- The 600-point sample grid `xs = np.linspace(-0.5*L, 1.5*L, 600)`. -/
noncomputable def sampleXs (H betaDeg : ℝ) : List ℝ :=
  let Lslope := H / Real.tan (rad betaDeg)
  linspace (-0.5 * Lslope) (1.5 * Lslope) 600

/-- `xs_valid = xs[circle_mask]`: samples where `R² - (x-xc)² ≥ 0`. -/
noncomputable def maskValid (H betaDeg xc R : ℝ) : List ℝ :=
  (sampleXs H betaDeg).filter (fun x => decide (R ^ 2 - (x - xc) ^ 2 ≥ 0))

/-- The lower arc `y = yc - sqrt(R² - (x-xc)²)`. -/
noncomputable def yLowerAt (yc R xc x : ℝ) : ℝ :=
  yc - Real.sqrt (R ^ 2 - (x - xc) ^ 2)

/-- `x_int = xs_valid[below_surface]`: masked samples whose lower arc lies
at or below the ground surface. -/
noncomputable def belowList (H betaDeg xc yc R : ℝ) : List ℝ :=
  (maskValid H betaDeg xc R).filter
    (fun x => decide (yLowerAt yc R xc x ≤ slopeSurfaceY x H betaDeg))

/-- `(np.min l, np.max l)` of a nonempty list (the source only evaluates it
on arrays of length at least 10). -/
def spanOf (l : List ℝ) : ℝ × ℝ :=
  match l with
  | [] => (0, 0)
  | b0 :: rest => (rest.foldl min b0, rest.foldl max b0)

/-- `x_mids = 0.5 * (x_edges[:-1] + x_edges[1:])`. -/
def midsOf (edges : List ℝ) : List ℝ :=
  (edges.zip edges.tail).map (fun p => 0.5 * (p.1 + p.2))

/-- Body of the per-slice loop of `bishop_fs_for_circle`: rejects when the
lower arc does not exist at the midpoint, when the slice height is not
above `0.01`, or when the tangent is vertical (`|y_sl - yc| < 1e-8`). -/
noncomputable def buildSlice (H betaDeg gamma xc yc R b xm : ℝ) : Option Slice :=
  let y_s := slopeSurfaceY xm H betaDeg
  if R ^ 2 - (xm - xc) ^ 2 < 0 then none
  else
    let y_sl := yc - Real.sqrt (R ^ 2 - (xm - xc) ^ 2)
    let hgt := y_s - y_sl
    if hgt ≤ 0.01 then none
    else if |y_sl - yc| < 1e-8 then none
    else
      let dydx := -(xm - xc) / (y_sl - yc)
      let alpha := Real.arctan dydx
      some ⟨hgt, gamma * (hgt * b), alpha, b / Real.cos alpha⟩

/-- The per-slice loop itself: first failing midpoint rejects the whole
circle, otherwise all slices are collected in order. -/
def slicesLoop (bs : ℝ → Option Slice) : List ℝ → Option (List Slice)
  | [] => some []
  | x :: xs => (bs x).bind (fun s => (slicesLoop bs xs).map (fun rest => s :: rest))

/-- Geometry stage of `bishop_fs_for_circle` (lines 64-161 of the source):
sample the circle, reject empty masks, fewer than 10 qualifying samples or
a span narrower than `0.2`, then build the `n_slices` slices. -/
noncomputable def buildSlicesStage (H betaDeg gamma xc yc R : ℝ) (n_slices : ℕ) :
    Option (List Slice) :=
  if (maskValid H betaDeg xc R).isEmpty then none
  else if (belowList H betaDeg xc yc R).length < 10 then none
  else
    let xL := (spanOf (belowList H betaDeg xc yc R)).1
    let xR := (spanOf (belowList H betaDeg xc yc R)).2
    if xR - xL < 0.2 then none
    else
      slicesLoop (buildSlice H betaDeg gamma xc yc R ((xR - xL) / (n_slices : ℝ)))
        (midsOf (linspace xL xR (n_slices + 1)))

/-- One fixed-point update:
`FS_new = Σ (c*l + W*tan(phi)) / (1 + tan(phi)*tan(alpha)/FS) / drive`. -/
noncomputable def fsIter (c phi : ℝ) (slices : List Slice) (drive FS : ℝ) : ℝ :=
  ((slices.map (fun sl =>
      (c * sl.l + sl.W * Real.tan phi) /
        (1 + Real.tan phi * Real.tan sl.alpha / FS))).sum) / drive

/-- The iteration loop (`for _ in range(max_iter)`), rejecting a
non-positive update, stopping within `tol`, and returning the last
computed estimate when the fuel runs out. -/
noncomputable def fsLoop (c phi : ℝ) (slices : List Slice) (drive tol : ℝ) :
    ℕ → ℝ → Option ℝ
  | 0, FS => some FS
  | k + 1, FS =>
    let FSnew := fsIter c phi slices drive FS
    if FSnew ≤ 0 then none
    else if |FSnew - FS| < tol then some FSnew
    else fsLoop c phi slices drive tol k FSnew

/-- Solver stage of `bishop_fs_for_circle` (lines 163-182): reject when
`drive = Σ W*sin(alpha) ≤ 1e-9`, otherwise iterate from `FS = 1.5`. -/
noncomputable def solveSlices (c phi : ℝ) (slices : List Slice) (maxIter : ℕ) (tol : ℝ) :
    Option ℝ :=
  let drive := (slices.map (fun sl => sl.W * Real.sin sl.alpha)).sum
  if drive ≤ 1e-9 then none
  else fsLoop c phi slices drive tol maxIter 1.5

/-- `bishop_fs_for_circle`: geometry stage followed by the Bishop solver
(the soil angle `phi_deg` is converted to radians exactly as in line 60). -/
noncomputable def bishopFsForCircle (H betaDeg c phiDeg gamma xc yc R : ℝ)
    (n_slices maxIter : ℕ) (tol : ℝ) : Option ℝ :=
  match buildSlicesStage H betaDeg gamma xc yc R n_slices with
  | none => none
  | some slices => solveSlices c (rad phiDeg) slices maxIter tol

/-- The `best` dictionary of `search_critical_circle`: all fields start as
`None` and are set together. -/
structure SearchRecord where
  FS : Option ℝ
  xc : Option ℝ
  yc : Option ℝ
  R : Option ℝ

/-- Loop body of the grid search: skip rejected candidates, seed the best
with the first accepted one, replace it on a strict `FS < best` only. -/
noncomputable def stepMin (f : ℝ × ℝ × ℝ → Option ℝ) (best : SearchRecord) (t : ℝ × ℝ × ℝ) :
    SearchRecord :=
  match f t with
  | none => best
  | some FS =>
    match best.FS with
    | none => ⟨some FS, some t.1, some t.2.1, some t.2.2⟩
    | some bFS => if FS < bFS then ⟨some FS, some t.1, some t.2.1, some t.2.2⟩ else best

/-- The candidate tuples of the triple loop, `xc` outermost, `R` innermost. -/
def productList (xcs ycs Rs : List ℝ) : List (ℝ × ℝ × ℝ) :=
  xcs.flatMap (fun xc => ycs.flatMap (fun yc => Rs.map (fun R => (xc, yc, R))))

/-- `search_critical_circle`: triple grid loop over
`np.linspace` grids, reduced with `stepMin` from the all-`None` record.
`bishop_fs_for_circle` is called with its default `max_iter=60`,
`tol=1e-4`. -/
noncomputable def searchCriticalCircle (H betaDeg c phiDeg gamma : ℝ) (n_slices : ℕ)
    (xc_min xc_max yc_min yc_max : ℝ) (n_xc n_yc : ℕ) (R_min R_max : ℝ) (n_R : ℕ) :
    SearchRecord :=
  let f := fun t : ℝ × ℝ × ℝ =>
    bishopFsForCircle H betaDeg c phiDeg gamma t.1 t.2.1 t.2.2 n_slices 60 (1e-4)
  let xcs := linspace xc_min xc_max n_xc
  let ycs := linspace yc_min yc_max n_yc
  let Rs := linspace R_min R_max n_R
  xcs.foldl
    (fun b1 xc => ycs.foldl
      (fun b2 yc => Rs.foldl (fun b3 R => stepMin f b3 (xc, yc, R)) b2) b1)
    ⟨none, none, none, none⟩

/-- The input validation of `SlopeStabilityApp.run_analysis` (lines
361-363) followed by the search: only `H ≤ 0`, `gamma ≤ 0` and
`n_slices < 10` are rejected, with the single message box text. -/
noncomputable def runAnalysis (H betaDeg c phiDeg gamma : ℝ) (n_slices : ℕ)
    (xc_min xc_max yc_min yc_max : ℝ) (n_xc n_yc : ℕ) (R_min R_max : ℝ) (n_R : ℕ) :
    Except String SearchRecord :=
  if H ≤ 0 ∨ gamma ≤ 0 ∨ n_slices < 10 then
    Except.error ("H, gamma must be > 0 and slices should be >= 10.")
  else
    Except.ok (searchCriticalCircle H betaDeg c phiDeg gamma n_slices
      xc_min xc_max yc_min yc_max n_xc n_yc R_min R_max n_R)

/-- Whether an `Except` result is a success. -/
def exceptIsOk (e : Except String SearchRecord) : Bool :=
  match e with
  | Except.ok _ => true
  | Except.error _ => false

/-- Membership inclusion of grids. -/
def listSubset (A B : List ℝ) : Prop := ∀ x ∈ A, x ∈ B

/-- "`a` is a found FS at least as critical as `b`": whenever `b` is a
found FS value, `a` is also found and not larger. -/
def fsLEopt (a b : Option ℝ) : Prop :=
  ∀ v, b = some v → ∃ w, a = some w ∧ w ≤ v

/-- The trial circle stays strictly farther than `R` from every point of
the ground surface (its radius is smaller than the minimum distance from
the center to the surface). -/
def circleClearOfSurface (xc yc R H betaDeg : ℝ) : Prop :=
  ∀ x : ℝ, R ^ 2 < (x - xc) ^ 2 + (slopeSurfaceY x H betaDeg - yc) ^ 2

/-- The center lies on or above the ground surface everywhere. -/
def centerAboveSurface (yc H betaDeg : ℝ) : Prop :=
  ∀ x : ℝ, slopeSurfaceY x H betaDeg ≤ yc

/-- The `i`-th sample of `np.linspace(-0.5, 1.5, 600)` for the slope
`H = 1`, `beta = 45°` (whose run is `L = 1`). -/
noncomputable def sampleF (i : ℕ) : ℝ := -(1 / 2) + 2 * (i : ℝ) / 599

/-- The `j`-th slice edge for the circle `xc = -1/2, R = 2` over that
slope: `np.linspace(-0.5, 1.5, 11)`. -/
noncomputable def cexG (j : ℕ) : ℝ := -(1 / 2) + 2 * (j : ℝ) / 10

/-- The `j`-th slice midpoint for that circle. -/
noncomputable def cexMid (j : ℕ) : ℝ := 0.5 * (cexG j + cexG (j + 1))

/-- The ten slice midpoints for that circle. -/
noncomputable def cexMids : List ℝ := (List.range 10).map cexMid

/-- The slice that `bishop_fs_for_circle` builds at midpoint `x` for the
trial circle `xc = -1/2, R = 2` (center depth `yc` left symbolic) over the
slope `H = 1`, `beta = 45°`, `gamma = 18`, with slice width `b = 1/5`. -/
noncomputable def cexSlice (yc x : ℝ) : Slice :=
  ⟨slopeSurfaceY x 1 45 - (yc - Real.sqrt (4 - (x + 1 / 2) ^ 2)),
   18 * ((slopeSurfaceY x 1 45 - (yc - Real.sqrt (4 - (x + 1 / 2) ^ 2))) * (1 / 5)),
   Real.arctan ((x + 1 / 2) / Real.sqrt (4 - (x + 1 / 2) ^ 2)),
   (1 / 5) / Real.cos (Real.arctan ((x + 1 / 2) / Real.sqrt (4 - (x + 1 / 2) ^ 2)))⟩

/-- The complete slice set of that trial circle. -/
noncomputable def cexSlices (yc : ℝ) : List Slice := cexMids.map (cexSlice yc)

/-! ### Section 2: general lemmas about the embedded combinators -/

lemma foldl_min_of_le (l : List ℝ) : ∀ a : ℝ, (∀ x ∈ l, a ≤ x) → l.foldl min a = a := by
  induction l with
  | nil => intro a _; rfl
  | cons x xs ih =>
    intro a h
    have hax : a ≤ x := h x (List.mem_cons_self x xs)
    rw [List.foldl_cons, min_eq_left hax]
    exact ih a (fun y hy => h y (List.mem_cons_of_mem x hy))

lemma foldl_max_of_le (l : List ℝ) : ∀ a : ℝ, (∀ x ∈ l, x ≤ a) → l.foldl max a = a := by
  induction l with
  | nil => intro a _; rfl
  | cons x xs ih =>
    intro a h
    have hax : x ≤ a := h x (List.mem_cons_self x xs)
    rw [List.foldl_cons, max_eq_left hax]
    exact ih a (fun y hy => h y (List.mem_cons_of_mem x hy))

lemma foldl_max_eq_of_mem (l : List ℝ) :
    ∀ a m : ℝ, a ≤ m → m ∈ l → (∀ x ∈ l, x ≤ m) → l.foldl max a = m := by
  induction l with
  | nil => intro a m _ hm _; exact absurd hm (List.not_mem_nil m)
  | cons x xs ih =>
    intro a m ham hm hub
    rw [List.foldl_cons]
    rcases List.mem_cons.mp hm with hx | hxs
    · subst hx
      by_cases hmem : m ∈ xs
      · exact ih (max a m) m (max_le ham (le_refl m)) hmem
          (fun y hy => hub y (List.mem_cons_of_mem m hy))
      · have hall : ∀ y ∈ xs, y ≤ max a m :=
          fun y hy => (hub y (List.mem_cons_of_mem m hy)).trans (le_max_right a m)
        rw [foldl_max_of_le xs (max a m) hall]
        exact max_eq_right ham
    · exact ih (max a x) m (max_le ham (hub x (List.mem_cons_self x xs))) hxs
        (fun y hy => hub y (List.mem_cons_of_mem x hy))

lemma slicesLoop_eq_map (bs : ℝ → Option Slice) (F : ℝ → Slice) :
    ∀ l : List ℝ, (∀ x ∈ l, bs x = some (F x)) →
      slicesLoop bs l = some (l.map F) := by
  intro l
  induction l with
  | nil => intro _; rfl
  | cons x xs ih =>
    intro h
    have hx := h x (List.mem_cons_self x xs)
    have hrest := ih (fun y hy => h y (List.mem_cons_of_mem x hy))
    simp [slicesLoop, hx, hrest]

lemma slicesLoop_some (bs : ℝ → Option Slice) :
    ∀ (l : List ℝ) (s : List Slice), slicesLoop bs l = some s →
      s.length = l.length ∧ ∀ x ∈ l, (bs x).isSome = true := by
  intro l
  induction l with
  | nil =>
    intro s hs
    have hs' : some ([] : List Slice) = some s := hs
    cases hs'
    exact ⟨rfl, by simp⟩
  | cons x xs ih =>
    intro s hs
    have hs' : (bs x).bind
        (fun sl => (slicesLoop bs xs).map (fun rest => sl :: rest)) = some s := hs
    cases hbx : bs x with
    | none => rw [hbx] at hs'; simp at hs'
    | some sl =>
      rw [hbx] at hs'
      cases hrest : slicesLoop bs xs with
      | none => rw [hrest] at hs'; simp at hs'
      | some srest =>
        rw [hrest] at hs'
        have hs2 : some (sl :: srest) = some s := hs'
        obtain ⟨hlen, hall⟩ := ih srest hrest
        cases hs2
        constructor
        · simp [hlen]
        · intro y hy
          rcases List.mem_cons.mp hy with hy | hy
          · subst hy; simp [hbx]
          · exact hall y hy

lemma range_map_cons {α : Type} (g : ℕ → α) (n : ℕ) :
    (List.range (n + 1)).map g = g 0 :: (List.range n).map (fun i => g (i + 1)) := by
  rw [List.range_succ_eq_map]
  simp only [List.map_cons, List.map_map]
  rfl

lemma zipConsec_map_range {α : Type} :
    ∀ (n : ℕ) (g : ℕ → α),
      (((List.range (n + 1)).map g).zip (((List.range (n + 1)).map g).tail)) =
        (List.range n).map (fun j => (g j, g (j + 1))) := by
  intro n
  induction n with
  | zero => intro g; simp [List.range_succ]
  | succ m ih =>
    intro g
    have e1 : (List.range (m + 1 + 1)).map g =
        g 0 :: (List.range (m + 1)).map (fun j => g (j + 1)) := range_map_cons g (m + 1)
    have e2 : (List.range (m + 1)).map (fun j => g (j + 1)) =
        g 1 :: (List.range m).map (fun j => g (j + 2)) := by
      have h := range_map_cons (fun j => g (j + 1)) m
      simpa using h
    have ihg := ih (fun j => g (j + 1))
    rw [e2, List.tail_cons] at ihg
    rw [e1, List.tail_cons, e2, List.zip_cons_cons, ihg, range_map_cons]

/-- Flattening the triple loop of the search into a single fold over the
enumerated candidates. -/
lemma foldl_product (f : ℝ × ℝ × ℝ → Option ℝ) :
    ∀ (xcs : List ℝ) (ycs Rs : List ℝ) (acc : SearchRecord),
      xcs.foldl
        (fun b1 xc => ycs.foldl
          (fun b2 yc => Rs.foldl (fun b3 R => stepMin f b3 (xc, yc, R)) b2) b1) acc =
      (productList xcs ycs Rs).foldl (stepMin f) acc := by
  intro xcs
  induction xcs with
  | nil => intro ycs Rs acc; rfl
  | cons xc xcs ih =>
    intro ycs Rs acc
    rw [List.foldl_cons, ih]
    have hprod : productList (xc :: xcs) ycs Rs =
        (ycs.flatMap (fun yc => Rs.map (fun R => (xc, yc, R)))) ++ productList xcs ycs Rs := by
      simp [productList]
    rw [hprod, List.foldl_append]
    congr 1
    clear ih hprod
    induction ycs generalizing acc with
    | nil => rfl
    | cons yc ycs ihy =>
      rw [List.foldl_cons, List.flatMap_cons, List.foldl_append, ihy]
      congr 1
      rw [List.foldl_map]

lemma searchCriticalCircle_eq_foldl (H betaDeg c phiDeg gamma : ℝ) (n_slices : ℕ)
    (xc_min xc_max yc_min yc_max : ℝ) (n_xc n_yc : ℕ) (R_min R_max : ℝ) (n_R : ℕ) :
    searchCriticalCircle H betaDeg c phiDeg gamma n_slices
      xc_min xc_max yc_min yc_max n_xc n_yc R_min R_max n_R =
    (productList (linspace xc_min xc_max n_xc) (linspace yc_min yc_max n_yc)
        (linspace R_min R_max n_R)).foldl
      (stepMin (fun t =>
        bishopFsForCircle H betaDeg c phiDeg gamma t.1 t.2.1 t.2.2 n_slices 60 (1e-4)))
      ⟨none, none, none, none⟩ := by
  unfold searchCriticalCircle
  exact foldl_product _ _ _ _ _

/-- Invariant of the reduction `stepMin` over a processed prefix of the
candidate list: either nothing was accepted yet and the record is still
all-`None`, or the record holds the first candidate achieving the minimum
FS among the processed accepted ones. -/
def InvP (f : ℝ × ℝ × ℝ → Option ℝ) (processed : List (ℝ × ℝ × ℝ))
    (acc : SearchRecord) : Prop :=
  (acc = ⟨none, none, none, none⟩ ∧ ∀ t ∈ processed, f t = none) ∨
  (∃ v t l1 l2, acc = ⟨some v, some t.1, some t.2.1, some t.2.2⟩ ∧
    processed = l1 ++ t :: l2 ∧ f t = some v ∧
    (∀ u ∈ l1, ∀ w, f u = some w → v < w) ∧
    (∀ u ∈ processed, ∀ w, f u = some w → v ≤ w))

lemma stepMin_inv (f : ℝ × ℝ × ℝ → Option ℝ) (processed : List (ℝ × ℝ × ℝ))
    (acc : SearchRecord) (t : ℝ × ℝ × ℝ) (h : InvP f processed acc) :
    InvP f (processed ++ [t]) (stepMin f acc t) := by
  rcases h with ⟨hacc, hnone⟩ | ⟨v, t0, l1, l2, hacc, hproc, hft0, hfirst, hmin⟩
  · cases hft : f t with
    | none =>
      left
      refine ⟨by simp [stepMin, hft, hacc], ?_⟩
      intro u hu
      rcases List.mem_append.mp hu with hu | hu
      · exact hnone u hu
      · simp only [List.mem_singleton] at hu; subst hu; exact hft
    | some w =>
      right
      refine ⟨w, t, processed, [], ?_, rfl, hft, ?_, ?_⟩
      · simp [stepMin, hft, hacc]
      · intro u hu w' hw'
        exact absurd hw' (by simp [hnone u hu])
      · intro u hu w' hw'
        rcases List.mem_append.mp hu with hu | hu
        · exact absurd hw' (by simp [hnone u hu])
        · simp only [List.mem_singleton] at hu; subst hu
          rw [hft] at hw'; cases hw'; exact le_refl w
  · cases hft : f t with
    | none =>
      right
      have hstep : stepMin f acc t = acc := by simp [stepMin, hft]
      refine ⟨v, t0, l1, l2 ++ [t], by rw [hstep]; exact hacc, by rw [hproc]; simp,
        hft0, hfirst, ?_⟩
      intro u hu w' hw'
      rcases List.mem_append.mp hu with hu | hu
      · exact hmin u hu w' hw'
      · simp only [List.mem_singleton] at hu; subst hu
        exact absurd hw' (by simp [hft])
    | some w =>
      by_cases hlt : w < v
      · right
        refine ⟨w, t, processed, [], ?_, rfl, hft, ?_, ?_⟩
        · simp [stepMin, hft, hacc, hlt]
        · intro u hu w' hw'
          exact lt_of_lt_of_le hlt (hmin u hu w' hw')
        · intro u hu w' hw'
          rcases List.mem_append.mp hu with hu | hu
          · exact le_of_lt (lt_of_lt_of_le hlt (hmin u hu w' hw'))
          · simp only [List.mem_singleton] at hu; subst hu
            rw [hft] at hw'; cases hw'; exact le_refl w
      · right
        have hstep : stepMin f acc t = acc := by
          simp [stepMin, hft, hacc, hlt]
        refine ⟨v, t0, l1, l2 ++ [t], by rw [hstep]; exact hacc, by rw [hproc]; simp,
          hft0, hfirst, ?_⟩
        intro u hu w' hw'
        rcases List.mem_append.mp hu with hu | hu
        · exact hmin u hu w' hw'
        · simp only [List.mem_singleton] at hu; subst hu
          rw [hft] at hw'; cases hw'
          exact le_of_not_gt hlt

lemma foldl_stepMin_inv (f : ℝ × ℝ × ℝ → Option ℝ) :
    ∀ (l processed : List (ℝ × ℝ × ℝ)) (acc : SearchRecord), InvP f processed acc →
      InvP f (processed ++ l) (l.foldl (stepMin f) acc) := by
  intro l
  induction l with
  | nil => intro processed acc h; simpa using h
  | cons t ts ih =>
    intro processed acc h
    have h1 := stepMin_inv f processed acc t h
    have h2 := ih (processed ++ [t]) (stepMin f acc t) h1
    simpa [List.append_assoc] using h2

/-- The master invariant at the end of the full candidate list. -/
lemma search_inv (f : ℝ × ℝ × ℝ → Option ℝ) (cands : List (ℝ × ℝ × ℝ)) :
    InvP f cands (cands.foldl (stepMin f) ⟨none, none, none, none⟩) := by
  have h0 : InvP f [] ⟨none, none, none, none⟩ := by
    left; exact ⟨rfl, by simp⟩
  simpa using foldl_stepMin_inv f cands [] _ h0

/-! ### Section 3: evaluation of the embedding on concrete trial circles -/

lemma tan_rad_45 : Real.tan (rad 45) = 1 := by
  have h : rad 45 = Real.pi / 4 := by unfold rad; ring
  rw [h, Real.tan_pi_div_four]

lemma surf145_eq (x : ℝ) :
    slopeSurfaceY x 1 45 = if x < 0 then 1 else if x ≤ 1 then 1 - x else 0 := by
  show (if x < 0 then (1 : ℝ)
    else if x ≤ 1 / Real.tan (rad 45) then 1 - 1 / (1 / Real.tan (rad 45)) * x else 0) = _
  rw [tan_rad_45]
  norm_num

lemma surf145_nonneg (x : ℝ) : 0 ≤ slopeSurfaceY x 1 45 := by
  rw [surf145_eq]
  split_ifs with h1 h2
  · norm_num
  · linarith
  · exact le_refl 0

lemma surf145_le_one (x : ℝ) : slopeSurfaceY x 1 45 ≤ 1 := by
  rw [surf145_eq]
  split_ifs with h1 h2
  · exact le_refl 1
  · push_neg at h1; linarith
  · norm_num

lemma sampleXs_eq : sampleXs 1 45 = (List.range 600).map sampleF := by
  show linspace (-0.5 * (1 / Real.tan (rad 45))) (1.5 * (1 / Real.tan (rad 45))) 600 =
    (List.range 600).map sampleF
  rw [tan_rad_45]
  unfold linspace
  rw [if_neg (by norm_num), if_neg (by norm_num)]
  apply List.map_congr_left
  intro i _
  unfold sampleF
  norm_num

lemma sampleF_mem_bounds :
    ∀ x ∈ (List.range 600).map sampleF, -(1 / 2) ≤ x ∧ x ≤ 3 / 2 := by
  intro x hx
  rcases List.mem_map.mp hx with ⟨i, hi, rfl⟩
  have hi' : (i : ℝ) ≤ 599 := by
    have h := List.mem_range.mp hi
    exact_mod_cast Nat.le_of_lt_succ h
  have hnn : (0 : ℝ) ≤ (i : ℝ) := Nat.cast_nonneg i
  unfold sampleF
  constructor
  · have h0 : 0 ≤ 2 * (i : ℝ) / 599 := by positivity
    linarith
  · have h1 : 2 * (i : ℝ) / 599 ≤ 2 := by
      rw [div_le_iff₀ (by norm_num : (0 : ℝ) < 599)]
      linarith
    linarith

lemma maskValid_eval : maskValid 1 45 (-(1 / 2)) 2 = (List.range 600).map sampleF := by
  unfold maskValid
  rw [sampleXs_eq]
  apply List.filter_eq_self.mpr
  intro x hx
  obtain ⟨h1, h2⟩ := sampleF_mem_bounds x hx
  simp only [decide_eq_true_eq]
  nlinarith [sq_nonneg (x + 1 / 2), sq_nonneg (x - 3 / 2)]

lemma belowList_eval (yc : ℝ) (hyc : yc ≤ 0) :
    belowList 1 45 (-(1 / 2)) yc 2 = (List.range 600).map sampleF := by
  unfold belowList
  rw [maskValid_eval]
  apply List.filter_eq_self.mpr
  intro x _
  simp only [decide_eq_true_eq]
  unfold yLowerAt
  have h1 := surf145_nonneg x
  have h2 : 0 ≤ Real.sqrt ((2 : ℝ) ^ 2 - (x - -(1 / 2)) ^ 2) := Real.sqrt_nonneg _
  linarith

lemma span_eval : spanOf ((List.range 600).map sampleF) = (-(1 / 2), 3 / 2) := by
  rw [range_map_cons]
  show ((((List.range 599).map fun i => sampleF (i + 1)).foldl min (sampleF 0)),
    (((List.range 599).map fun i => sampleF (i + 1)).foldl max (sampleF 0))) = _
  have hlo : ∀ x ∈ (List.range 599).map fun i => sampleF (i + 1), sampleF 0 ≤ x := by
    intro x hx
    rcases List.mem_map.mp hx with ⟨i, _, rfl⟩
    unfold sampleF
    have : (0 : ℝ) ≤ 2 * ((i : ℝ) + 1) / 599 := by positivity
    push_cast
    nlinarith
  have hhi : ∀ x ∈ (List.range 599).map fun i => sampleF (i + 1), x ≤ 3 / 2 := by
    intro x hx
    rcases List.mem_map.mp hx with ⟨i, hi, rfl⟩
    have hi' : (i : ℝ) ≤ 598 := by
      have h := List.mem_range.mp hi
      exact_mod_cast Nat.le_of_lt_succ h
    unfold sampleF
    push_cast
    have hd : 2 * ((i : ℝ) + 1) / 599 ≤ 2 := by
      rw [div_le_iff₀ (by norm_num : (0 : ℝ) < 599)]
      linarith
    linarith
  have hmem : (3 / 2 : ℝ) ∈ (List.range 599).map fun i => sampleF (i + 1) := by
    apply List.mem_map.mpr
    refine ⟨598, List.mem_range.mpr (by norm_num), ?_⟩
    unfold sampleF
    norm_num
  have h0le : sampleF 0 ≤ (3 / 2 : ℝ) := by unfold sampleF; norm_num
  rw [foldl_min_of_le _ _ hlo, foldl_max_eq_of_mem _ _ _ h0le hmem hhi]
  unfold sampleF
  norm_num

lemma linspace11_eq : linspace (-(1 / 2)) (3 / 2) (10 + 1) = (List.range 11).map cexG := by
  unfold linspace
  rw [if_neg (by norm_num), if_neg (by norm_num)]
  apply List.map_congr_left
  intro j _
  unfold cexG
  norm_num

lemma mids_eval : midsOf (linspace (-(1 / 2)) (3 / 2) (10 + 1)) = cexMids := by
  rw [linspace11_eq]
  unfold midsOf
  rw [zipConsec_map_range 10 cexG, List.map_map]
  rfl

lemma cexMid_bounds : ∀ x ∈ cexMids, 1 / 10 ≤ x + 1 / 2 ∧ x + 1 / 2 ≤ 19 / 10 := by
  intro x hx
  rcases List.mem_map.mp hx with ⟨j, hj, rfl⟩
  have hj' : (j : ℝ) ≤ 9 := by
    have h := List.mem_range.mp hj
    exact_mod_cast Nat.le_of_lt_succ h
  have hnn : (0 : ℝ) ≤ (j : ℝ) := Nat.cast_nonneg j
  unfold cexMid cexG
  push_cast
  constructor
  · nlinarith
  · nlinarith

lemma buildSlice_eval (yc x : ℝ) (hyc : yc ≤ -1) (hx1 : 1 / 10 ≤ x + 1 / 2)
    (hx2 : x + 1 / 2 ≤ 19 / 10) :
    buildSlice 1 45 18 (-(1 / 2)) yc 2 (1 / 5) x = some (cexSlice yc x) := by
  have hs_eq : (2 : ℝ) ^ 2 - (x - -(1 / 2)) ^ 2 = 4 - (x + 1 / 2) ^ 2 := by ring
  have hs_lb : (39 / 100 : ℝ) ≤ 4 - (x + 1 / 2) ^ 2 := by nlinarith
  have hs_pos : (0 : ℝ) < 4 - (x + 1 / 2) ^ 2 := by linarith
  have hsurf := surf145_nonneg x
  have hsqrt : 0 ≤ Real.sqrt (4 - (x + 1 / 2) ^ 2) := Real.sqrt_nonneg _
  simp only [buildSlice]
  rw [hs_eq]
  rw [if_neg (by linarith : ¬(4 - (x + 1 / 2) ^ 2 < 0))]
  rw [if_neg (by linarith :
    ¬(slopeSurfaceY x 1 45 - (yc - Real.sqrt (4 - (x + 1 / 2) ^ 2)) ≤ 0.01))]
  have habs : |yc - Real.sqrt (4 - (x + 1 / 2) ^ 2) - yc| =
      Real.sqrt (4 - (x + 1 / 2) ^ 2) := by
    rw [show yc - Real.sqrt (4 - (x + 1 / 2) ^ 2) - yc =
      -Real.sqrt (4 - (x + 1 / 2) ^ 2) by ring, abs_neg, abs_of_nonneg hsqrt]
  have hsqrt_lb : (1e-8 : ℝ) ≤ Real.sqrt (4 - (x + 1 / 2) ^ 2) := by
    rw [Real.le_sqrt (by norm_num) (le_of_lt hs_pos)]
    nlinarith
  rw [if_neg (by rw [habs]; exact not_lt.mpr hsqrt_lb)]
  have harg : -(x - -(1 / 2)) / (yc - Real.sqrt (4 - (x + 1 / 2) ^ 2) - yc) =
      (x + 1 / 2) / Real.sqrt (4 - (x + 1 / 2) ^ 2) := by
    rw [show yc - Real.sqrt (4 - (x + 1 / 2) ^ 2) - yc =
      -Real.sqrt (4 - (x + 1 / 2) ^ 2) by ring,
      show -(x - -(1 / 2)) = -(x + 1 / 2) by ring, neg_div_neg_eq]
  rw [harg]
  rfl

lemma buildSlice_all_mids (yc : ℝ) (hyc : yc ≤ -1) :
    ∀ x ∈ cexMids, buildSlice 1 45 18 (-(1 / 2)) yc 2 (1 / 5) x = some (cexSlice yc x) :=
  fun x hx => buildSlice_eval yc x hyc (cexMid_bounds x hx).1 (cexMid_bounds x hx).2

lemma stage_eval (yc : ℝ) (hyc : yc ≤ -1) :
    buildSlicesStage 1 45 18 (-(1 / 2)) yc 2 10 = some (cexSlices yc) := by
  have hb : belowList 1 45 (-(1 / 2)) yc 2 = (List.range 600).map sampleF :=
    belowList_eval yc (by linarith)
  simp only [buildSlicesStage]
  rw [maskValid_eval, hb, span_eval]
  rw [if_neg (by simp)]
  rw [if_neg (by simp)]
  simp only
  rw [if_neg (by norm_num)]
  rw [show ((3 / 2 : ℝ) - -(1 / 2)) / ((10 : ℕ) : ℝ) = 1 / 5 by norm_num]
  rw [mids_eval]
  exact slicesLoop_eq_map _ _ cexMids (buildSlice_all_mids yc hyc)

lemma rad_zero : rad 0 = 0 := by unfold rad; ring

lemma fsIter_phi0 (c : ℝ) (s : List Slice) (drive FS : ℝ) :
    fsIter c 0 s drive FS = (s.map (fun sl => c * sl.l)).sum / drive := by
  unfold fsIter
  simp [Real.tan_zero]

lemma fsLoop_fix (c phi : ℝ) (s : List Slice) (drive tol S : ℝ)
    (hS : ∀ FS, fsIter c phi s drive FS = S) (hpos : 0 < S) :
    ∀ k, fsLoop c phi s drive tol k S = some S := by
  intro k
  induction k with
  | zero => rfl
  | succ m ih =>
    show (if fsIter c phi s drive S ≤ 0 then none
      else if |fsIter c phi s drive S - S| < tol then some (fsIter c phi s drive S)
      else fsLoop c phi s drive tol m (fsIter c phi s drive S)) = some S
    rw [hS S, if_neg (not_le.mpr hpos)]
    by_cases htol : |S - S| < tol
    · rw [if_pos htol]
    · rw [if_neg htol]; exact ih

lemma fsLoop_const (c phi : ℝ) (s : List Slice) (drive tol S : ℝ)
    (hS : ∀ FS, fsIter c phi s drive FS = S) (hpos : 0 < S) :
    ∀ (k : ℕ) (FS0 : ℝ), 1 ≤ k → fsLoop c phi s drive tol k FS0 = some S := by
  intro k FS0 hk
  cases k with
  | zero => exact absurd hk (by norm_num)
  | succ m =>
    show (if fsIter c phi s drive FS0 ≤ 0 then none
      else if |fsIter c phi s drive FS0 - FS0| < tol then some (fsIter c phi s drive FS0)
      else fsLoop c phi s drive tol m (fsIter c phi s drive FS0)) = some S
    rw [hS FS0, if_neg (not_le.mpr hpos)]
    by_cases htol : |S - FS0| < tol
    · rw [if_pos htol]
    · rw [if_neg htol]; exact fsLoop_fix c phi s drive tol S hS hpos m

lemma fsLoop_none_of_zero (c phi : ℝ) (s : List Slice) (drive tol : ℝ)
    (hS : ∀ FS, fsIter c phi s drive FS = 0) :
    ∀ (k : ℕ) (FS0 : ℝ), 1 ≤ k → fsLoop c phi s drive tol k FS0 = none := by
  intro k FS0 hk
  cases k with
  | zero => exact absurd hk (by norm_num)
  | succ m =>
    show (if fsIter c phi s drive FS0 ≤ 0 then none
      else if |fsIter c phi s drive FS0 - FS0| < tol then some (fsIter c phi s drive FS0)
      else fsLoop c phi s drive tol m (fsIter c phi s drive FS0)) = none
    rw [hS FS0, if_pos (le_refl (0 : ℝ))]

lemma fsLoop_pos (c phi : ℝ) (s : List Slice) (drive tol : ℝ) :
    ∀ (k : ℕ) (FS v : ℝ), 0 < FS → fsLoop c phi s drive tol k FS = some v → 0 < v := by
  intro k
  induction k with
  | zero =>
    intro FS v hFS h
    have h' : some FS = some v := h
    cases h'
    exact hFS
  | succ m ih =>
    intro FS v hFS h
    have h' : (if fsIter c phi s drive FS ≤ 0 then none
      else if |fsIter c phi s drive FS - FS| < tol then some (fsIter c phi s drive FS)
      else fsLoop c phi s drive tol m (fsIter c phi s drive FS)) = some v := h
    by_cases hle : fsIter c phi s drive FS ≤ 0
    · rw [if_pos hle] at h'; simp at h'
    · rw [if_neg hle] at h'
      push_neg at hle
      by_cases htol : |fsIter c phi s drive FS - FS| < tol
      · rw [if_pos htol] at h'
        have h'' : fsIter c phi s drive FS = v := by
          have := h'
          simpa using this
        rw [h''] at hle
        exact hle
      · rw [if_neg htol] at h'
        exact ih _ v hle h'

lemma solveSlices_pos (c phi : ℝ) (s : List Slice) (m : ℕ) (tol v : ℝ)
    (h : solveSlices c phi s m tol = some v) : 0 < v := by
  have h' : (if (s.map (fun sl => sl.W * Real.sin sl.alpha)).sum ≤ 1e-9 then none
    else fsLoop c phi s ((s.map (fun sl => sl.W * Real.sin sl.alpha)).sum) tol m 1.5) =
      some v := h
  by_cases hd : (s.map (fun sl => sl.W * Real.sin sl.alpha)).sum ≤ 1e-9
  · rw [if_pos hd] at h'; simp at h'
  · rw [if_neg hd] at h'
    exact fsLoop_pos c phi s _ tol m 1.5 v (by norm_num) h'

lemma bishop_pos (H betaDeg c phiDeg gamma xc yc R : ℝ) (n m : ℕ) (tol v : ℝ)
    (h : bishopFsForCircle H betaDeg c phiDeg gamma xc yc R n m tol = some v) : 0 < v := by
  unfold bishopFsForCircle at h
  cases hst : buildSlicesStage H betaDeg gamma xc yc R n with
  | none => rw [hst] at h; simp at h
  | some s =>
    rw [hst] at h
    have h' : solveSlices c (rad phiDeg) s m tol = some v := h
    exact solveSlices_pos _ _ _ _ _ _ h'

lemma sin_arctan_div (d : ℝ) (hd : d ^ 2 < 4) :
    Real.sin (Real.arctan (d / Real.sqrt (4 - d ^ 2))) = d / 2 := by
  have hs_pos : (0 : ℝ) < 4 - d ^ 2 := by linarith
  have hsq : 0 < Real.sqrt (4 - d ^ 2) := Real.sqrt_pos.mpr hs_pos
  rw [Real.sin_arctan]
  have h1 : 1 + (d / Real.sqrt (4 - d ^ 2)) ^ 2 = 4 / (4 - d ^ 2) := by
    rw [div_pow, Real.sq_sqrt (le_of_lt hs_pos)]
    field_simp
  rw [h1]
  have hsqrt4 : Real.sqrt 4 = 2 := by
    rw [show (4 : ℝ) = 2 ^ 2 by norm_num, Real.sqrt_sq (by norm_num : (0 : ℝ) ≤ 2)]
  have h2 : Real.sqrt (4 / (4 - d ^ 2)) = 2 / Real.sqrt (4 - d ^ 2) := by
    rw [Real.sqrt_div (by norm_num : (0 : ℝ) ≤ 4), hsqrt4]
  rw [h2]
  field_simp

lemma drive_lb (yc : ℝ) (hyc : yc ≤ -1) :
    (1e-9 : ℝ) < ((cexSlices yc).map (fun sl => sl.W * Real.sin sl.alpha)).sum := by
  unfold cexSlices
  rw [List.map_map]
  have hterm : ∀ x ∈ cexMids,
      (9 / 50 : ℝ) ≤ ((fun sl => sl.W * Real.sin sl.alpha) ∘ cexSlice yc) x := by
    intro x hx
    obtain ⟨hx1, hx2⟩ := cexMid_bounds x hx
    show (9 / 50 : ℝ) ≤ (cexSlice yc x).W * Real.sin (cexSlice yc x).alpha
    have hd2 : (x + 1 / 2) ^ 2 < 4 := by nlinarith
    show (9 / 50 : ℝ) ≤
      18 * ((slopeSurfaceY x 1 45 - (yc - Real.sqrt (4 - (x + 1 / 2) ^ 2))) * (1 / 5)) *
        Real.sin (Real.arctan ((x + 1 / 2) / Real.sqrt (4 - (x + 1 / 2) ^ 2)))
    rw [sin_arctan_div (x + 1 / 2) hd2]
    have hsurf := surf145_nonneg x
    have hsqrt : 0 ≤ Real.sqrt (4 - (x + 1 / 2) ^ 2) := Real.sqrt_nonneg _
    have hA : (1 : ℝ) ≤ slopeSurfaceY x 1 45 - (yc - Real.sqrt (4 - (x + 1 / 2) ^ 2)) := by
      linarith
    have key : (1 : ℝ) * (1 / 10) ≤
        (slopeSurfaceY x 1 45 - (yc - Real.sqrt (4 - (x + 1 / 2) ^ 2))) * (x + 1 / 2) :=
      mul_le_mul hA hx1 (by norm_num) (by linarith)
    nlinarith [key]
  have hconst : (cexMids.map (fun _ => (9 / 50 : ℝ))).sum = 10 * (9 / 50) := by
    rw [List.map_const', List.sum_replicate]
    have hlen : cexMids.length = 10 := by unfold cexMids; simp
    rw [hlen]
    simp [nsmul_eq_mul]
  have hle := List.sum_le_sum hterm
  rw [hconst] at hle
  calc (1e-9 : ℝ) < 10 * (9 / 50) := by norm_num
    _ ≤ _ := hle

lemma cexSlices_l_pos (yc : ℝ) : ∀ sl ∈ cexSlices yc, 0 < sl.l := by
  intro sl hsl
  rcases List.mem_map.mp hsl with ⟨x, _, rfl⟩
  show 0 < (1 / 5 : ℝ) / Real.cos (Real.arctan ((x + 1 / 2) / Real.sqrt (4 - (x + 1 / 2) ^ 2)))
  exact div_pos (by norm_num) (Real.cos_arctan_pos _)

lemma cexSlices_ne_nil (yc : ℝ) : cexSlices yc ≠ [] := by
  unfold cexSlices cexMids
  simp

lemma solve_cex_pos (yc : ℝ) (hyc : yc ≤ -1) :
    ∃ v, 0 < v ∧ solveSlices 1 0 (cexSlices yc) 60 (1e-4) = some v := by
  have hdrive := drive_lb yc hyc
  have hiter : ∀ FS, fsIter 1 0 (cexSlices yc) (((cexSlices yc).map
      (fun sl => sl.W * Real.sin sl.alpha)).sum) FS =
      ((cexSlices yc).map (fun sl => 1 * sl.l)).sum /
        ((cexSlices yc).map (fun sl => sl.W * Real.sin sl.alpha)).sum :=
    fun FS => fsIter_phi0 1 (cexSlices yc) _ FS
  have hnum : 0 < ((cexSlices yc).map (fun sl => 1 * sl.l)).sum := by
    apply List.sum_pos
    · intro x hx
      rcases List.mem_map.mp hx with ⟨sl, hsl, rfl⟩
      have := cexSlices_l_pos yc sl hsl
      linarith
    · simp only [ne_eq, List.map_eq_nil_iff]
      exact cexSlices_ne_nil yc
  have hSpos : 0 < ((cexSlices yc).map (fun sl => 1 * sl.l)).sum /
      ((cexSlices yc).map (fun sl => sl.W * Real.sin sl.alpha)).sum :=
    div_pos hnum (by linarith)
  refine ⟨_, hSpos, ?_⟩
  have hstep : solveSlices 1 0 (cexSlices yc) 60 (1e-4) =
      fsLoop 1 0 (cexSlices yc)
        (((cexSlices yc).map (fun sl => sl.W * Real.sin sl.alpha)).sum) (1e-4) 60 1.5 := by
    show (if ((cexSlices yc).map (fun sl => sl.W * Real.sin sl.alpha)).sum ≤ 1e-9 then none
      else fsLoop 1 0 (cexSlices yc)
        (((cexSlices yc).map (fun sl => sl.W * Real.sin sl.alpha)).sum) (1e-4) 60 1.5) = _
    rw [if_neg (not_le.mpr (by linarith))]
  rw [hstep]
  exact fsLoop_const 1 0 (cexSlices yc) _ (1e-4) _ hiter hSpos 60 1.5 (by norm_num)

lemma bishop_cex_eval (yc : ℝ) (hyc : yc ≤ -1) :
    ∃ v, 0 < v ∧ bishopFsForCircle 1 45 1 0 18 (-(1 / 2)) yc 2 10 60 (1e-4) = some v := by
  obtain ⟨v, hv, hsolve⟩ := solve_cex_pos yc hyc
  refine ⟨v, hv, ?_⟩
  unfold bishopFsForCircle
  rw [stage_eval yc hyc]
  show solveSlices 1 (rad 0) (cexSlices yc) 60 (1e-4) = some v
  rw [rad_zero]
  exact hsolve

lemma solve_cex_c0 : solveSlices 0 0 (cexSlices (-1)) 60 (1e-4) = none := by
  have hdrive := drive_lb (-1) (by norm_num)
  have hiter : ∀ FS, fsIter 0 0 (cexSlices (-1)) (((cexSlices (-1)).map
      (fun sl => sl.W * Real.sin sl.alpha)).sum) FS = 0 := by
    intro FS
    rw [fsIter_phi0]
    simp
  have hstep : solveSlices 0 0 (cexSlices (-1)) 60 (1e-4) =
      fsLoop 0 0 (cexSlices (-1))
        (((cexSlices (-1)).map (fun sl => sl.W * Real.sin sl.alpha)).sum) (1e-4) 60 1.5 := by
    show (if ((cexSlices (-1)).map (fun sl => sl.W * Real.sin sl.alpha)).sum ≤ 1e-9 then none
      else fsLoop 0 0 (cexSlices (-1))
        (((cexSlices (-1)).map (fun sl => sl.W * Real.sin sl.alpha)).sum) (1e-4) 60 1.5) = _
    rw [if_neg (not_le.mpr (by linarith))]
  rw [hstep]
  exact fsLoop_none_of_zero 0 0 (cexSlices (-1)) _ (1e-4) hiter 60 1.5 (by norm_num)

lemma bishop_cex_c0 :
    bishopFsForCircle 1 45 0 0 18 (-(1 / 2)) (-1) 2 10 60 (1e-4) = none := by
  unfold bishopFsForCircle
  rw [stage_eval (-1) (by norm_num)]
  show solveSlices 0 (rad 0) (cexSlices (-1)) 60 (1e-4) = none
  rw [rad_zero]
  exact solve_cex_c0

lemma bishop_far (c phiDeg gamma yc R : ℝ) (n m : ℕ) (tol xc : ℝ)
    (hfar : ∀ x : ℝ, -(1 / 2) ≤ x → x ≤ 3 / 2 → R ^ 2 - (x - xc) ^ 2 < 0) :
    bishopFsForCircle 1 45 c phiDeg gamma xc yc R n m tol = none := by
  have hmask : maskValid 1 45 xc R = [] := by
    unfold maskValid
    rw [sampleXs_eq]
    apply List.filter_eq_nil_iff.mpr
    intro x hx
    obtain ⟨h1, h2⟩ := sampleF_mem_bounds x hx
    simp only [decide_eq_true_eq, not_le]
    exact hfar x h1 h2
  unfold bishopFsForCircle buildSlicesStage
  rw [hmask]
  simp

lemma bishop_clear (H betaDeg c phiDeg gamma xc yc R : ℝ) (n m : ℕ) (tol : ℝ)
    (hclear : circleClearOfSurface xc yc R H betaDeg)
    (habove : centerAboveSurface yc H betaDeg) :
    bishopFsForCircle H betaDeg c phiDeg gamma xc yc R n m tol = none := by
  have hbelow : belowList H betaDeg xc yc R = [] := by
    unfold belowList
    apply List.filter_eq_nil_iff.mpr
    intro x hx
    have hmask : R ^ 2 - (x - xc) ^ 2 ≥ 0 := by
      unfold maskValid at hx
      have h := List.of_mem_filter hx
      simpa using h
    simp only [decide_eq_true_eq, not_le]
    unfold yLowerAt
    have hd := hclear x
    have hs := habove x
    have hnn : 0 ≤ yc - slopeSurfaceY x H betaDeg := by linarith
    by_contra hcon
    push_neg at hcon
    have h1 : yc - slopeSurfaceY x H betaDeg ≤ Real.sqrt (R ^ 2 - (x - xc) ^ 2) := by
      linarith
    have h2 : (yc - slopeSurfaceY x H betaDeg) ^ 2 ≤
        (Real.sqrt (R ^ 2 - (x - xc) ^ 2)) ^ 2 := pow_le_pow_left₀ hnn h1 2
    rw [Real.sq_sqrt (by linarith : (0 : ℝ) ≤ R ^ 2 - (x - xc) ^ 2)] at h2
    have h3 : (slopeSurfaceY x H betaDeg - yc) ^ 2 =
        (yc - slopeSurfaceY x H betaDeg) ^ 2 := by ring
    rw [h3] at hd
    linarith
  unfold bishopFsForCircle buildSlicesStage
  rw [hbelow]
  by_cases hm : (maskValid H betaDeg xc R).isEmpty
  · simp [hm]
  · simp [hm]

lemma stepMin_none (f : ℝ × ℝ × ℝ → Option ℝ) (best : SearchRecord) (t : ℝ × ℝ × ℝ)
    (h : f t = none) : stepMin f best t = best := by
  simp [stepMin, h]

lemma stepMin_some_none (f : ℝ × ℝ × ℝ → Option ℝ) (t : ℝ × ℝ × ℝ) (v : ℝ)
    (h : f t = some v) (best : SearchRecord) (hbest : best.FS = none) :
    stepMin f best t = ⟨some v, some t.1, some t.2.1, some t.2.2⟩ := by
  simp [stepMin, h, hbest]

lemma linspace_single (a b : ℝ) : linspace a b 1 = [a] := by
  unfold linspace
  norm_num

lemma xcs3_eq : linspace (-(2001 / 2)) (1999 / 2) 3 = [-(2001 / 2), -(1 / 2), 1999 / 2] := by
  unfold linspace
  rw [if_neg (by norm_num), if_neg (by norm_num)]
  simp [List.range_succ]
  norm_num

lemma xcs4_eq : linspace (-(2001 / 2)) (1999 / 2) 4 =
    [-(2001 / 2), -(2003 / 6), 1997 / 6, 1999 / 2] := by
  unfold linspace
  rw [if_neg (by norm_num), if_neg (by norm_num)]
  simp [List.range_succ]
  norm_num

lemma search_coarse_eval :
    ∃ v, 0 < v ∧ searchCriticalCircle 1 45 1 0 18 10
      (-(2001 / 2)) (1999 / 2) (-1) (-1) 3 1 2 2 1 =
      ⟨some v, some (-(1 / 2)), some (-1), some 2⟩ := by
  obtain ⟨v, hv, hb⟩ := bishop_cex_eval (-1) (by norm_num)
  refine ⟨v, hv, ?_⟩
  rw [searchCriticalCircle_eq_foldl, xcs3_eq, linspace_single, linspace_single]
  have hprod : productList [-(2001 / 2), -(1 / 2), 1999 / 2] [(-1 : ℝ)] [(2 : ℝ)] =
      [(-(2001 / 2), -1, 2), (-(1 / 2), -1, 2), (1999 / 2, -1, 2)] := by
    unfold productList
    simp
  rw [hprod]
  simp only [List.foldl_cons, List.foldl_nil]
  have h1 : bishopFsForCircle 1 45 1 0 18 (-(2001 / 2)) (-1) 2 10 60 (1e-4) = none :=
    bishop_far 1 0 18 (-1) 2 10 60 (1e-4) (-(2001 / 2))
      (by intro x hx1 hx2; nlinarith)
  have h3 : bishopFsForCircle 1 45 1 0 18 (1999 / 2) (-1) 2 10 60 (1e-4) = none :=
    bishop_far 1 0 18 (-1) 2 10 60 (1e-4) (1999 / 2)
      (by intro x hx1 hx2; nlinarith)
  rw [stepMin_none (fun t => bishopFsForCircle 1 45 1 0 18 t.1 t.2.1 t.2.2 10 60 (1e-4))
      ⟨none, none, none, none⟩ (-(2001 / 2), -1, 2) h1,
    stepMin_some_none (fun t => bishopFsForCircle 1 45 1 0 18 t.1 t.2.1 t.2.2 10 60 (1e-4))
      (-(1 / 2), -1, 2) v hb ⟨none, none, none, none⟩ rfl,
    stepMin_none (fun t => bishopFsForCircle 1 45 1 0 18 t.1 t.2.1 t.2.2 10 60 (1e-4))
      _ (1999 / 2, -1, 2) h3]

lemma search_fine_eval :
    searchCriticalCircle 1 45 1 0 18 10 (-(2001 / 2)) (1999 / 2) (-1) (-1) 4 1 2 2 1 =
      ⟨none, none, none, none⟩ := by
  rw [searchCriticalCircle_eq_foldl, xcs4_eq, linspace_single, linspace_single]
  have hprod : productList [-(2001 / 2), -(2003 / 6), 1997 / 6, 1999 / 2]
      [(-1 : ℝ)] [(2 : ℝ)] =
      [(-(2001 / 2), -1, 2), (-(2003 / 6), -1, 2), (1997 / 6, -1, 2),
        (1999 / 2, -1, 2)] := by
    unfold productList
    simp
  rw [hprod]
  simp only [List.foldl_cons, List.foldl_nil]
  have h1 : bishopFsForCircle 1 45 1 0 18 (-(2001 / 2)) (-1) 2 10 60 (1e-4) = none :=
    bishop_far 1 0 18 (-1) 2 10 60 (1e-4) (-(2001 / 2))
      (by intro x hx1 hx2; nlinarith)
  have h2 : bishopFsForCircle 1 45 1 0 18 (-(2003 / 6)) (-1) 2 10 60 (1e-4) = none :=
    bishop_far 1 0 18 (-1) 2 10 60 (1e-4) (-(2003 / 6))
      (by intro x hx1 hx2; nlinarith)
  have h3 : bishopFsForCircle 1 45 1 0 18 (1997 / 6) (-1) 2 10 60 (1e-4) = none :=
    bishop_far 1 0 18 (-1) 2 10 60 (1e-4) (1997 / 6)
      (by intro x hx1 hx2; nlinarith)
  have h4 : bishopFsForCircle 1 45 1 0 18 (1999 / 2) (-1) 2 10 60 (1e-4) = none :=
    bishop_far 1 0 18 (-1) 2 10 60 (1e-4) (1999 / 2)
      (by intro x hx1 hx2; nlinarith)
  rw [stepMin_none (fun t => bishopFsForCircle 1 45 1 0 18 t.1 t.2.1 t.2.2 10 60 (1e-4))
      ⟨none, none, none, none⟩ (-(2001 / 2), -1, 2) h1,
    stepMin_none (fun t => bishopFsForCircle 1 45 1 0 18 t.1 t.2.1 t.2.2 10 60 (1e-4))
      _ (-(2003 / 6), -1, 2) h2,
    stepMin_none (fun t => bishopFsForCircle 1 45 1 0 18 t.1 t.2.1 t.2.2 10 60 (1e-4))
      _ (1997 / 6, -1, 2) h3,
    stepMin_none (fun t => bishopFsForCircle 1 45 1 0 18 t.1 t.2.1 t.2.2 10 60 (1e-4))
      _ (1999 / 2, -1, 2) h4]

lemma search_far_single (xcv : ℝ)
    (hfar : ∀ x : ℝ, -(1 / 2) ≤ x → x ≤ 3 / 2 → (2 : ℝ) ^ 2 - (x - xcv) ^ 2 < 0) :
    searchCriticalCircle 1 45 1 0 18 10 xcv xcv (-1) (-1) 1 1 2 2 1 =
      ⟨none, none, none, none⟩ := by
  rw [searchCriticalCircle_eq_foldl, linspace_single, linspace_single, linspace_single]
  have hprod : productList [xcv] [(-1 : ℝ)] [(2 : ℝ)] = [(xcv, -1, 2)] := by
    unfold productList
    simp
  rw [hprod]
  simp only [List.foldl_cons, List.foldl_nil]
  rw [stepMin_none (fun t => bishopFsForCircle 1 45 1 0 18 t.1 t.2.1 t.2.2 10 60 (1e-4))
      ⟨none, none, none, none⟩ (xcv, -1, 2)
      (bishop_far 1 0 18 (-1) 2 10 60 (1e-4) xcv hfar)]

lemma linspace_sorted (a b : ℝ) (n : ℕ) (hab : a ≤ b) :
    (linspace a b n).Sorted (· ≤ ·) := by
  unfold linspace
  split_ifs with h0 h1
  · simp
  · simp
  · have hn2 : 2 ≤ n := by omega
    have hd : (0 : ℝ) < (n : ℝ) - 1 := by
      have : (2 : ℝ) ≤ (n : ℝ) := by exact_mod_cast hn2
      linarith
    rw [List.Sorted, List.pairwise_map]
    apply List.Pairwise.imp ?_ (List.pairwise_lt_range n)
    intro i j hij
    have hcast : (i : ℝ) ≤ (j : ℝ) := by exact_mod_cast le_of_lt hij
    have hmul : (b - a) * (i : ℝ) ≤ (b - a) * (j : ℝ) :=
      mul_le_mul_of_nonneg_left hcast (by linarith)
    have hdiv : (b - a) * (i : ℝ) / ((n : ℝ) - 1) ≤ (b - a) * (j : ℝ) / ((n : ℝ) - 1) := by
      gcongr
    linarith

lemma tan_rad_pos (betaDeg : ℝ) (h1 : 0 < betaDeg) (h2 : betaDeg < 90) :
    0 < Real.tan (rad betaDeg) := by
  have hpi := Real.pi_pos
  apply Real.tan_pos_of_pos_of_lt_pi_div_two
  · unfold rad
    positivity
  · unfold rad
    have hlt : betaDeg * Real.pi < 90 * Real.pi :=
      mul_lt_mul_of_pos_right h2 hpi
    have : Real.pi / 2 = 90 * Real.pi / 180 := by ring
    rw [this]
    linarith

lemma linspace_length (a b : ℝ) (n : ℕ) : (linspace a b n).length = n := by
  unfold linspace
  split_ifs with h0 h1
  · simp [h0]
  · simp [h1]
  · simp

lemma midsOf_linspace_length (a b : ℝ) (n : ℕ) :
    (midsOf (linspace a b (n + 1))).length = n := by
  unfold midsOf
  rw [List.length_map, List.length_zip, List.length_tail, linspace_length]
  simp

lemma buildSlice_isSome_checks (H betaDeg gamma xc yc R b xm : ℝ)
    (h : (buildSlice H betaDeg gamma xc yc R b xm).isSome = true) :
    0 ≤ R ^ 2 - (xm - xc) ^ 2 ∧
    0.01 < slopeSurfaceY xm H betaDeg - (yc - Real.sqrt (R ^ 2 - (xm - xc) ^ 2)) ∧
    1e-8 ≤ |yc - Real.sqrt (R ^ 2 - (xm - xc) ^ 2) - yc| := by
  have h' : (if R ^ 2 - (xm - xc) ^ 2 < 0 then (none : Option Slice)
    else if slopeSurfaceY xm H betaDeg - (yc - Real.sqrt (R ^ 2 - (xm - xc) ^ 2)) ≤ 0.01
      then none
    else if |yc - Real.sqrt (R ^ 2 - (xm - xc) ^ 2) - yc| < 1e-8 then none
    else some ⟨slopeSurfaceY xm H betaDeg - (yc - Real.sqrt (R ^ 2 - (xm - xc) ^ 2)),
      gamma * ((slopeSurfaceY xm H betaDeg - (yc - Real.sqrt (R ^ 2 - (xm - xc) ^ 2))) * b),
      Real.arctan (-(xm - xc) / (yc - Real.sqrt (R ^ 2 - (xm - xc) ^ 2) - yc)),
      b / Real.cos (Real.arctan
        (-(xm - xc) / (yc - Real.sqrt (R ^ 2 - (xm - xc) ^ 2) - yc)))⟩).isSome = true := h
  by_cases h1 : R ^ 2 - (xm - xc) ^ 2 < 0
  · rw [if_pos h1] at h'; simp at h'
  · rw [if_neg h1] at h'
    by_cases h2 : slopeSurfaceY xm H betaDeg -
        (yc - Real.sqrt (R ^ 2 - (xm - xc) ^ 2)) ≤ 0.01
    · rw [if_pos h2] at h'; simp at h'
    · rw [if_neg h2] at h'
      by_cases h3 : |yc - Real.sqrt (R ^ 2 - (xm - xc) ^ 2) - yc| < 1e-8
      · rw [if_pos h3] at h'; simp at h'
      · exact ⟨not_lt.mp h1, not_le.mp h2, not_lt.mp h3⟩

/-! ### Section 4: the claims -/

/-- Claim C1: for every slice set, the Bishop solver rejects (returns no
FS) when the driving sum `drive = Σ W_i * sin(alpha_i)` is not strictly
positive above the epsilon `1e-9`; otherwise it iterates
`FS_{k+1} = [Σ (c*l_i + W_i*tan(phi)) / (1 + tan(phi)*tan(alpha_i)/FS_k)] / drive`
starting from `FS_0 = 1.5`; one loop step stops returning `FS_{k+1}` when
`|FS_{k+1} - FS_k| < tol`, rejects when `FS_{k+1} ≤ 0` (the non-finite
part of the guard is vacuous over the reals), continues otherwise, and
exhausted fuel returns the last computed value. -/
theorem claim1_bishop_solver_behavior :
    ∀ (c phi : ℝ) (s : List Slice) (m : ℕ) (tol d FS : ℝ) (k : ℕ),
      ((s.map (fun sl => sl.W * Real.sin sl.alpha)).sum ≤ 1e-9 →
        solveSlices c phi s m tol = none) ∧
      (1e-9 < (s.map (fun sl => sl.W * Real.sin sl.alpha)).sum →
        solveSlices c phi s m tol =
          fsLoop c phi s ((s.map (fun sl => sl.W * Real.sin sl.alpha)).sum) tol m 1.5) ∧
      (fsLoop c phi s d tol 0 FS = some FS) ∧
      (((s.map (fun sl => (c * sl.l + sl.W * Real.tan phi) /
            (1 + Real.tan phi * Real.tan sl.alpha / FS))).sum) / d ≤ 0 →
        fsLoop c phi s d tol (k + 1) FS = none) ∧
      (0 < ((s.map (fun sl => (c * sl.l + sl.W * Real.tan phi) /
            (1 + Real.tan phi * Real.tan sl.alpha / FS))).sum) / d →
        |((s.map (fun sl => (c * sl.l + sl.W * Real.tan phi) /
            (1 + Real.tan phi * Real.tan sl.alpha / FS))).sum) / d - FS| < tol →
        fsLoop c phi s d tol (k + 1) FS =
          some (((s.map (fun sl => (c * sl.l + sl.W * Real.tan phi) /
            (1 + Real.tan phi * Real.tan sl.alpha / FS))).sum) / d)) ∧
      (0 < ((s.map (fun sl => (c * sl.l + sl.W * Real.tan phi) /
            (1 + Real.tan phi * Real.tan sl.alpha / FS))).sum) / d →
        tol ≤ |((s.map (fun sl => (c * sl.l + sl.W * Real.tan phi) /
            (1 + Real.tan phi * Real.tan sl.alpha / FS))).sum) / d - FS| →
        fsLoop c phi s d tol (k + 1) FS =
          fsLoop c phi s d tol k (((s.map (fun sl => (c * sl.l + sl.W * Real.tan phi) /
            (1 + Real.tan phi * Real.tan sl.alpha / FS))).sum) / d)) := by
  intro c phi s m tol d FS k
  refine ⟨?_, ?_, rfl, ?_, ?_, ?_⟩
  · intro h
    show (if (s.map (fun sl => sl.W * Real.sin sl.alpha)).sum ≤ 1e-9 then none
      else fsLoop c phi s ((s.map (fun sl => sl.W * Real.sin sl.alpha)).sum) tol m 1.5) =
      none
    rw [if_pos h]
  · intro h
    show (if (s.map (fun sl => sl.W * Real.sin sl.alpha)).sum ≤ 1e-9 then none
      else fsLoop c phi s ((s.map (fun sl => sl.W * Real.sin sl.alpha)).sum) tol m 1.5) = _
    rw [if_neg (not_le.mpr h)]
  · intro h
    have h' : fsIter c phi s d FS ≤ 0 := h
    show (if fsIter c phi s d FS ≤ 0 then none
      else if |fsIter c phi s d FS - FS| < tol then some (fsIter c phi s d FS)
      else fsLoop c phi s d tol k (fsIter c phi s d FS)) = none
    rw [if_pos h']
  · intro h1 h2
    have h1' : 0 < fsIter c phi s d FS := h1
    have h2' : |fsIter c phi s d FS - FS| < tol := h2
    show (if fsIter c phi s d FS ≤ 0 then none
      else if |fsIter c phi s d FS - FS| < tol then some (fsIter c phi s d FS)
      else fsLoop c phi s d tol k (fsIter c phi s d FS)) = _
    rw [if_neg (not_le.mpr h1'), if_pos h2']
    rfl
  · intro h1 h2
    have h1' : 0 < fsIter c phi s d FS := h1
    have h2' : tol ≤ |fsIter c phi s d FS - FS| := h2
    show (if fsIter c phi s d FS ≤ 0 then none
      else if |fsIter c phi s d FS - FS| < tol then some (fsIter c phi s d FS)
      else fsLoop c phi s d tol k (fsIter c phi s d FS)) = _
    rw [if_neg (not_le.mpr h1'), if_neg (not_lt.mpr h2')]
    rfl

/-- Witness for C1: the empty slice set has driving sum `0 ≤ 1e-9` and
the solver indeed rejects it. -/
theorem claim1_witness :
    (((([] : List Slice)).map (fun sl => sl.W * Real.sin sl.alpha)).sum ≤ 1e-9) ∧
      solveSlices 1 0 [] 60 (1e-3) = none := by
  constructor
  · simp
    norm_num
  · exact (claim1_bishop_solver_behavior 1 0 [] 60 (1e-3) 0 1.5 0).1 (by simp; norm_num)

/-- Counterexample for C2: the slice set of the geometry-accepted trial
circle `xc = -1/2, yc = -1, R = 2` over the slope `H = 1, beta = 45°,
gamma = 18`, taken with `phi = 0` and `c = 0`: the claimed closed form
`Σ(c*l)/Σ(W*sin(alpha))` equals `0`, but the solver output is a rejection
(`none`), not that value — the claim fails for cohesionless soil. -/
theorem claim2_counterexample :
    buildSlicesStage 1 45 18 (-(1 / 2)) (-1) 2 10 = some (cexSlices (-1)) ∧
    solveSlices 0 0 (cexSlices (-1)) 60 (1e-4) = none ∧
    ((cexSlices (-1)).map (fun sl => 0 * sl.l)).sum /
      ((cexSlices (-1)).map (fun sl => sl.W * Real.sin sl.alpha)).sum = 0 := by
  refine ⟨stage_eval (-1) (by norm_num), solve_cex_c0, ?_⟩
  simp

/-- Claim C2 (amended): for every slice set with positive base lengths and
driving sum above `1e-9`, when `phi = 0` and `c > 0` the solver's output
equals the closed form `Σ(c*l_i) / Σ(W_i*sin(alpha_i))` exactly, for every
`max_iter ≥ 1` and every `tol` (when `c = 0` the closed form is `0` and
the solver instead rejects, as the counterexample shows). -/
theorem claim2_amended_phi0_closed_form :
    ∀ (c tol : ℝ) (s : List Slice) (m : ℕ),
      0 < c → (∀ sl ∈ s, 0 < sl.l) → s ≠ [] →
      1e-9 < (s.map (fun sl => sl.W * Real.sin sl.alpha)).sum →
      1 ≤ m →
      solveSlices c 0 s m tol =
        some ((s.map (fun sl => c * sl.l)).sum /
          (s.map (fun sl => sl.W * Real.sin sl.alpha)).sum) := by
  intro c tol s m hc hl hne hdrive hm
  have hiter : ∀ FS, fsIter c 0 s ((s.map (fun sl => sl.W * Real.sin sl.alpha)).sum) FS =
      (s.map (fun sl => c * sl.l)).sum /
        (s.map (fun sl => sl.W * Real.sin sl.alpha)).sum :=
    fun FS => fsIter_phi0 c s _ FS
  have hnum : 0 < (s.map (fun sl => c * sl.l)).sum := by
    apply List.sum_pos
    · intro x hx
      rcases List.mem_map.mp hx with ⟨sl, hsl, rfl⟩
      exact mul_pos hc (hl sl hsl)
    · simp only [ne_eq, List.map_eq_nil_iff]
      exact hne
  have hS : 0 < (s.map (fun sl => c * sl.l)).sum /
      (s.map (fun sl => sl.W * Real.sin sl.alpha)).sum :=
    div_pos hnum (by linarith)
  show (if (s.map (fun sl => sl.W * Real.sin sl.alpha)).sum ≤ 1e-9 then none
    else fsLoop c 0 s ((s.map (fun sl => sl.W * Real.sin sl.alpha)).sum) tol m 1.5) = _
  rw [if_neg (not_le.mpr hdrive)]
  exact fsLoop_const c 0 s _ tol _ hiter hS m 1.5 hm

/-- Witness for the amended C2: a single slice with `W = 1`,
`alpha = pi/4`, `l = 1`, with `c = 1` and `phi = 0`. -/
theorem claim2_witness :
    solveSlices 1 0 [⟨1, 1, Real.pi / 4, 1⟩] 60 (1e-4) =
      some (([(⟨1, 1, Real.pi / 4, 1⟩ : Slice)].map (fun sl => 1 * sl.l)).sum /
        ([(⟨1, 1, Real.pi / 4, 1⟩ : Slice)].map
          (fun sl => sl.W * Real.sin sl.alpha)).sum) := by
  apply claim2_amended_phi0_closed_form 1 (1e-4) [⟨1, 1, Real.pi / 4, 1⟩] 60 (by norm_num)
  · intro sl hsl
    rw [List.mem_singleton] at hsl
    subst hsl
    show (0 : ℝ) < 1
    norm_num
  · simp
  · show (1e-9 : ℝ) < ([(⟨1, 1, Real.pi / 4, 1⟩ : Slice)].map
      (fun sl => sl.W * Real.sin sl.alpha)).sum
    have h2 : (1 : ℝ) ≤ Real.sqrt 2 :=
      (Real.le_sqrt (by norm_num) (by norm_num)).mpr (by norm_num)
    simp only [List.map_cons, List.map_nil, List.sum_cons, List.sum_nil]
    show (1e-9 : ℝ) < 1 * Real.sin (Real.pi / 4) + 0
    rw [Real.sin_pi_div_four]
    nlinarith
  · norm_num

/-- Claim C4: slice construction is all-or-nothing.  Whenever the geometry
stage produces a slice set, the qualifying region held at least 10
samples, the qualifying span was at least `0.2` wide, the slice set is
complete (`n_slices` slices, never partial), and at every midpoint the
lower arc exists, the height is strictly above `0.01`, and the tangent is
not vertical.  Since the stage returns an `Option`, any failing check
yields the single rejection `none` for the whole circle. -/
theorem claim4_all_or_nothing :
    ∀ (H betaDeg gamma xc yc R : ℝ) (n : ℕ) (s : List Slice),
      buildSlicesStage H betaDeg gamma xc yc R n = some s →
      10 ≤ (belowList H betaDeg xc yc R).length ∧
      0.2 ≤ (spanOf (belowList H betaDeg xc yc R)).2 -
        (spanOf (belowList H betaDeg xc yc R)).1 ∧
      s.length = n ∧
      ∀ xm ∈ midsOf (linspace (spanOf (belowList H betaDeg xc yc R)).1
          (spanOf (belowList H betaDeg xc yc R)).2 (n + 1)),
        0 ≤ R ^ 2 - (xm - xc) ^ 2 ∧
        0.01 < slopeSurfaceY xm H betaDeg - (yc - Real.sqrt (R ^ 2 - (xm - xc) ^ 2)) ∧
        1e-8 ≤ |yc - Real.sqrt (R ^ 2 - (xm - xc) ^ 2) - yc| := by
  intro H betaDeg gamma xc yc R n s hsome
  have h' : (if (maskValid H betaDeg xc R).isEmpty then none
    else if (belowList H betaDeg xc yc R).length < 10 then none
    else if (spanOf (belowList H betaDeg xc yc R)).2 -
        (spanOf (belowList H betaDeg xc yc R)).1 < 0.2 then none
    else slicesLoop (buildSlice H betaDeg gamma xc yc R
        (((spanOf (belowList H betaDeg xc yc R)).2 -
          (spanOf (belowList H betaDeg xc yc R)).1) / (n : ℝ)))
      (midsOf (linspace (spanOf (belowList H betaDeg xc yc R)).1
        (spanOf (belowList H betaDeg xc yc R)).2 (n + 1)))) = some s := hsome
  by_cases hm : (maskValid H betaDeg xc R).isEmpty
  · rw [if_pos hm] at h'; simp at h'
  · rw [if_neg hm] at h'
    by_cases hlen : (belowList H betaDeg xc yc R).length < 10
    · rw [if_pos hlen] at h'; simp at h'
    · rw [if_neg hlen] at h'
      by_cases hspan : (spanOf (belowList H betaDeg xc yc R)).2 -
          (spanOf (belowList H betaDeg xc yc R)).1 < 0.2
      · rw [if_pos hspan] at h'; simp at h'
      · rw [if_neg hspan] at h'
        obtain ⟨hslen, hall⟩ := slicesLoop_some _ _ _ h'
        refine ⟨not_lt.mp hlen, not_lt.mp hspan, ?_, ?_⟩
        · rw [hslen, midsOf_linspace_length]
        · intro xm hxm
          exact buildSlice_isSome_checks H betaDeg gamma xc yc R _ xm (hall xm hxm)

/-- Witness for C4: the geometry-accepted circle `xc = -1/2, yc = -1,
R = 2` over the slope `H = 1, beta = 45°` produces a complete set of 10
slices from at least 10 qualifying samples. -/
theorem claim4_witness :
    buildSlicesStage 1 45 18 (-(1 / 2)) (-1) 2 10 = some (cexSlices (-1)) ∧
      10 ≤ (belowList 1 45 (-(1 / 2)) (-1) 2).length ∧ (cexSlices (-1)).length = 10 := by
  have hstage := stage_eval (-1) (by norm_num)
  have h := claim4_all_or_nothing 1 45 18 (-(1 / 2)) (-1) 2 10 (cexSlices (-1)) hstage
  exact ⟨hstage, h.1, h.2.2.1⟩

/-- Claim C5: `slope_surface_y` is the piecewise surface `H` on `x < 0`,
the line `H - (H/L)x` (non-increasing) on `[0, L]` with `L = H/tan(beta)`,
and `0` beyond the toe; literal values for `H = 10`, `beta = 45°`.  As a
Lean function it is total and deterministic over all real `x`. -/
theorem claim5_surface :
    ∀ (H betaDeg x : ℝ), 0 < H → 0 < betaDeg → betaDeg < 90 →
      ((x < 0 → slopeSurfaceY x H betaDeg = H) ∧
       (0 ≤ x → x ≤ H / Real.tan (rad betaDeg) →
         slopeSurfaceY x H betaDeg = H - H / (H / Real.tan (rad betaDeg)) * x) ∧
       (H / Real.tan (rad betaDeg) < x → slopeSurfaceY x H betaDeg = 0) ∧
       (∀ x1 x2 : ℝ, 0 ≤ x1 → x1 ≤ x2 → x2 ≤ H / Real.tan (rad betaDeg) →
         slopeSurfaceY x2 H betaDeg ≤ slopeSurfaceY x1 H betaDeg)) ∧
      (10 / Real.tan (rad 45) = 10 ∧
       slopeSurfaceY 5 10 45 = 5 ∧
       slopeSurfaceY (-1) 10 45 = 10 ∧
       slopeSurfaceY 15 10 45 = 0) := by
  intro H betaDeg x hH hb1 hb2
  have htan := tan_rad_pos betaDeg hb1 hb2
  have hL : 0 < H / Real.tan (rad betaDeg) := div_pos hH htan
  have hmid : ∀ y : ℝ, 0 ≤ y → y ≤ H / Real.tan (rad betaDeg) →
      slopeSurfaceY y H betaDeg = H - H / (H / Real.tan (rad betaDeg)) * y := by
    intro y hy1 hy2
    show (if y < 0 then H else if y ≤ H / Real.tan (rad betaDeg) then
      H - H / (H / Real.tan (rad betaDeg)) * y else 0) = _
    rw [if_neg (not_lt.mpr hy1), if_pos hy2]
  constructor
  · refine ⟨?_, hmid x, ?_, ?_⟩
    · intro hx
      show (if x < 0 then H else if x ≤ H / Real.tan (rad betaDeg) then
        H - H / (H / Real.tan (rad betaDeg)) * x else 0) = H
      rw [if_pos hx]
    · intro hx
      show (if x < 0 then H else if x ≤ H / Real.tan (rad betaDeg) then
        H - H / (H / Real.tan (rad betaDeg)) * x else 0) = 0
      rw [if_neg (not_lt.mpr (by linarith)), if_neg (not_le.mpr hx)]
    · intro x1 x2 h1 h12 h2
      rw [hmid x1 h1 (by linarith), hmid x2 (by linarith) h2]
      have hslope : 0 < H / (H / Real.tan (rad betaDeg)) := div_pos hH hL
      nlinarith
  · have h45 : Real.tan (rad 45) = 1 := tan_rad_45
    refine ⟨by rw [h45]; norm_num, ?_, ?_, ?_⟩
    · show (if (5 : ℝ) < 0 then 10 else if (5 : ℝ) ≤ 10 / Real.tan (rad 45) then
        10 - 10 / (10 / Real.tan (rad 45)) * 5 else 0) = 5
      rw [h45]
      norm_num
    · show (if (-1 : ℝ) < 0 then 10 else if (-1 : ℝ) ≤ 10 / Real.tan (rad 45) then
        10 - 10 / (10 / Real.tan (rad 45)) * (-1) else 0) = 10
      rw [if_pos (by norm_num)]
    · show (if (15 : ℝ) < 0 then 10 else if (15 : ℝ) ≤ 10 / Real.tan (rad 45) then
        10 - 10 / (10 / Real.tan (rad 45)) * 15 else 0) = 0
      rw [h45]
      norm_num

/-- Witness for C5 at `H = 10`, `beta = 45°`, `x = 5`. -/
theorem claim5_witness :
    (0 : ℝ) < 10 ∧ (0 : ℝ) < 45 ∧ (45 : ℝ) < 90 ∧ slopeSurfaceY 5 10 45 = 5 :=
  ⟨by norm_num, by norm_num, by norm_num,
    (claim5_surface 10 45 5 (by norm_num) (by norm_num) (by norm_num)).2.2.1⟩

/-- Claim C6: if every candidate of the enumerated grid is rejected, the
search returns the defined all-`None` "not found" record (it is a total
function, so no exception can be raised), and the individual rejections
are absorbed without ever being surfaced. -/
theorem claim6_no_solution :
    ∀ (H betaDeg c phiDeg gamma : ℝ) (n : ℕ) (xc_min xc_max yc_min yc_max : ℝ)
      (n_xc n_yc : ℕ) (R_min R_max : ℝ) (n_R : ℕ),
      (∀ t ∈ productList (linspace xc_min xc_max n_xc) (linspace yc_min yc_max n_yc)
          (linspace R_min R_max n_R),
        bishopFsForCircle H betaDeg c phiDeg gamma t.1 t.2.1 t.2.2 n 60 (1e-4) = none) →
      searchCriticalCircle H betaDeg c phiDeg gamma n xc_min xc_max yc_min yc_max
        n_xc n_yc R_min R_max n_R = ⟨none, none, none, none⟩ := by
  intro H betaDeg c phiDeg gamma n xc_min xc_max yc_min yc_max n_xc n_yc R_min R_max n_R
  intro hall
  rw [searchCriticalCircle_eq_foldl]
  rcases search_inv (fun t =>
      bishopFsForCircle H betaDeg c phiDeg gamma t.1 t.2.1 t.2.2 n 60 (1e-4))
      (productList (linspace xc_min xc_max n_xc) (linspace yc_min yc_max n_yc)
        (linspace R_min R_max n_R)) with
    ⟨hacc, _⟩ | ⟨v, t, l1, l2, _, hproc, hft, _, _⟩
  · exact hacc
  · have hmem : t ∈ productList (linspace xc_min xc_max n_xc)
        (linspace yc_min yc_max n_yc) (linspace R_min R_max n_R) := by
      rw [hproc]
      simp
    have hft' : bishopFsForCircle H betaDeg c phiDeg gamma t.1 t.2.1 t.2.2 n 60 (1e-4) =
        some v := hft
    rw [hall t hmem] at hft'
    simp at hft'

/-- Witness for C6: a one-candidate grid whose only circle misses the
sampled slope region entirely. -/
theorem claim6_witness :
    searchCriticalCircle 1 45 1 0 18 10 5000 5000 (-1) (-1) 1 1 2 2 1 =
      ⟨none, none, none, none⟩ := by
  apply claim6_no_solution
  intro t ht
  rw [linspace_single, linspace_single, linspace_single] at ht
  have hteq : t = (5000, -1, 2) := by
    unfold productList at ht
    simpa using ht
  subst hteq
  exact bishop_far 1 0 18 (-1) 2 10 60 (1e-4) 5000 (by intro x h1 h2; nlinarith)

lemma mem_productList {xcs ycs Rs : List ℝ} {t : ℝ × ℝ × ℝ} :
    t ∈ productList xcs ycs Rs ↔ t.1 ∈ xcs ∧ t.2.1 ∈ ycs ∧ t.2.2 ∈ Rs := by
  unfold productList
  simp only [List.mem_flatMap, List.mem_map]
  constructor
  · rintro ⟨xc, hxc, yc, hyc, R, hR, rfl⟩
    exact ⟨hxc, hyc, hR⟩
  · rintro ⟨h1, h2, h3⟩
    exact ⟨t.1, h1, t.2.1, h2, t.2.2, h3, rfl⟩

/-- Claim C3: the search is exactly the strict-minimum reduction, seeded
by the first accepted candidate, over the Cartesian product of the three
`np.linspace` grids enumerated `xc` outermost, then `yc`, then `R`
innermost (first conjunct); each grid is ascending whenever its range is
well formed (second conjunct); and whenever the search reports an FS `v`,
the reported candidate is an element of the enumeration whose FS is `v`,
every accepted candidate has FS at least `v`, and every candidate
enumerated strictly before the reported one has FS strictly above `v`
(strict less-than comparison: ties keep the first found). -/
theorem claim3_search_enumeration :
    ∀ (H betaDeg c phiDeg gamma : ℝ) (n : ℕ) (xc_min xc_max yc_min yc_max : ℝ)
      (n_xc n_yc : ℕ) (R_min R_max : ℝ) (n_R : ℕ),
      (searchCriticalCircle H betaDeg c phiDeg gamma n xc_min xc_max yc_min yc_max
          n_xc n_yc R_min R_max n_R =
        (productList (linspace xc_min xc_max n_xc) (linspace yc_min yc_max n_yc)
            (linspace R_min R_max n_R)).foldl
          (stepMin (fun t =>
            bishopFsForCircle H betaDeg c phiDeg gamma t.1 t.2.1 t.2.2 n 60 (1e-4)))
          ⟨none, none, none, none⟩) ∧
      ((xc_min ≤ xc_max → (linspace xc_min xc_max n_xc).Sorted (· ≤ ·)) ∧
       (yc_min ≤ yc_max → (linspace yc_min yc_max n_yc).Sorted (· ≤ ·)) ∧
       (R_min ≤ R_max → (linspace R_min R_max n_R).Sorted (· ≤ ·))) ∧
      (∀ v, (searchCriticalCircle H betaDeg c phiDeg gamma n xc_min xc_max yc_min yc_max
          n_xc n_yc R_min R_max n_R).FS = some v →
        ∃ l1 t l2,
          productList (linspace xc_min xc_max n_xc) (linspace yc_min yc_max n_yc)
            (linspace R_min R_max n_R) = l1 ++ t :: l2 ∧
          bishopFsForCircle H betaDeg c phiDeg gamma t.1 t.2.1 t.2.2 n 60 (1e-4) =
            some v ∧
          searchCriticalCircle H betaDeg c phiDeg gamma n xc_min xc_max yc_min yc_max
            n_xc n_yc R_min R_max n_R =
            ⟨some v, some t.1, some t.2.1, some t.2.2⟩ ∧
          (∀ u ∈ l1, ∀ w,
            bishopFsForCircle H betaDeg c phiDeg gamma u.1 u.2.1 u.2.2 n 60 (1e-4) =
              some w → v < w) ∧
          (∀ u ∈ productList (linspace xc_min xc_max n_xc) (linspace yc_min yc_max n_yc)
              (linspace R_min R_max n_R), ∀ w,
            bishopFsForCircle H betaDeg c phiDeg gamma u.1 u.2.1 u.2.2 n 60 (1e-4) =
              some w → v ≤ w)) := by
  intro H betaDeg c phiDeg gamma n xc_min xc_max yc_min yc_max n_xc n_yc R_min R_max n_R
  refine ⟨searchCriticalCircle_eq_foldl H betaDeg c phiDeg gamma n xc_min xc_max yc_min
      yc_max n_xc n_yc R_min R_max n_R,
    ⟨linspace_sorted _ _ _, linspace_sorted _ _ _, linspace_sorted _ _ _⟩, ?_⟩
  intro v hv
  have heq := searchCriticalCircle_eq_foldl H betaDeg c phiDeg gamma n xc_min xc_max
    yc_min yc_max n_xc n_yc R_min R_max n_R
  rcases search_inv (fun t =>
      bishopFsForCircle H betaDeg c phiDeg gamma t.1 t.2.1 t.2.2 n 60 (1e-4))
      (productList (linspace xc_min xc_max n_xc) (linspace yc_min yc_max n_yc)
        (linspace R_min R_max n_R)) with
    ⟨hacc, _⟩ | ⟨v', t, l1, l2, hacc, hproc, hft, hfirst, hmin⟩
  · rw [heq, hacc] at hv
    simp at hv
  · rw [heq, hacc] at hv
    have hv' : v' = v := by
      have : some v' = some v := hv
      cases this
      rfl
    subst hv'
    exact ⟨l1, t, l2, hproc, hft, by rw [heq, hacc], hfirst, hmin⟩

/-- Witness for C3: instantiation on a degenerate one-point grid,
extracting the enumeration identity and the ascending-grid conjunct. -/
theorem claim3_witness :
    (linspace (7000 : ℝ) 7000 1).Sorted (· ≤ ·) ∧
    searchCriticalCircle 1 45 1 0 18 10 7000 7000 (-1) (-1) 1 1 2 2 1 =
      (productList (linspace (7000 : ℝ) 7000 1) (linspace (-1 : ℝ) (-1) 1)
          (linspace (2 : ℝ) 2 1)).foldl
        (stepMin (fun t => bishopFsForCircle 1 45 1 0 18 t.1 t.2.1 t.2.2 10 60 (1e-4)))
        ⟨none, none, none, none⟩ :=
  ⟨((claim3_search_enumeration 1 45 1 0 18 10 7000 7000 (-1) (-1) 1 1 2 2 1).2.1).1
      (le_refl 7000),
   (claim3_search_enumeration 1 45 1 0 18 10 7000 7000 (-1) (-1) 1 1 2 2 1).1⟩

/-- Counterexample for C7: a call with all three ranges malformed
(`xc_min = 1 > 0 = xc_max`, likewise for `yc` and `R`) but valid `H`,
`gamma`, `n_slices` is not rejected: validation passes and the search is
performed, so malformed ranges are not "rejected before any candidate
evaluation" as the claim states. -/
theorem claim7_counterexample :
    exceptIsOk (runAnalysis 1 45 10 30 18 10 1 0 1 0 1 1 1 0 1) = true := by
  unfold runAnalysis
  rw [if_neg (by norm_num)]
  rfl

/-- Claim C7 (amended): the validation of `run_analysis` rejects exactly
`H ≤ 0`, `gamma ≤ 0` and `n_slices < 10`, before any candidate
evaluation, as the single descriptive failure message; malformed ranges
(`min > max`) are not validated and the search proceeds on them. -/
theorem claim7_amended_validation :
    ∀ (H betaDeg c phiDeg gamma : ℝ) (n_slices : ℕ)
      (xc_min xc_max yc_min yc_max : ℝ) (n_xc n_yc : ℕ) (R_min R_max : ℝ) (n_R : ℕ),
      ((H ≤ 0 ∨ gamma ≤ 0 ∨ n_slices < 10) →
        runAnalysis H betaDeg c phiDeg gamma n_slices xc_min xc_max yc_min yc_max
          n_xc n_yc R_min R_max n_R =
          Except.error ("H, gamma must be > 0 and slices should be >= 10.")) ∧
      (¬(H ≤ 0 ∨ gamma ≤ 0 ∨ n_slices < 10) →
        runAnalysis H betaDeg c phiDeg gamma n_slices xc_min xc_max yc_min yc_max
          n_xc n_yc R_min R_max n_R =
          Except.ok (searchCriticalCircle H betaDeg c phiDeg gamma n_slices
            xc_min xc_max yc_min yc_max n_xc n_yc R_min R_max n_R)) := by
  intro H betaDeg c phiDeg gamma n_slices xc_min xc_max yc_min yc_max n_xc n_yc
    R_min R_max n_R
  constructor
  · intro h
    unfold runAnalysis
    rw [if_pos h]
  · intro h
    unfold runAnalysis
    rw [if_neg h]

/-- Witness for the amended C7: `H = -1` is rejected with the single
descriptive message. -/
theorem claim7_witness :
    runAnalysis (-1) 45 10 30 18 25 (-10) 25 (-20) 5 14 10 8 40 10 =
      Except.error ("H, gamma must be > 0 and slices should be >= 10.") :=
  (claim7_amended_validation (-1) 45 10 30 18 25 (-10) 25 (-20) 5 14 10 8 40 10).1
    (by norm_num)

/-- Counterexample for C8: over the slope `H = 1, beta = 45°` with soil
`c = 1, phi = 0, gamma = 18`, bounds `xc ∈ [-1000.5, 999.5]`,
`yc ∈ [-1, -1]`, `R ∈ [2, 2]` and `n_slices = 10`, the coarser search
with `n_xc = 3` finds a candidate (the grid contains `xc = -1/2`), while
the finer search with `n_xc = 4` over the same bounds finds none — a
finer `np.linspace` grid is not a superset of a coarser one, so
increasing a grid count can lose the minimum instead of never increasing
it. -/
theorem claim8_counterexample :
    ((searchCriticalCircle 1 45 1 0 18 10 (-(2001 / 2)) (1999 / 2) (-1) (-1)
      3 1 2 2 1).FS).isSome = true ∧
    (searchCriticalCircle 1 45 1 0 18 10 (-(2001 / 2)) (1999 / 2) (-1) (-1)
      4 1 2 2 1).FS = none := by
  constructor
  · obtain ⟨v, _, hs⟩ := search_coarse_eval
    rw [hs]
    rfl
  · rw [search_fine_eval]

/-- Claim C8 (amended): grid refinement never increases the minimum FS
provided it actually refines the grid: if every grid point of the coarser
search occurs among the finer search's grid points (same slope, soil and
`n_slices`), then whenever the coarser search finds a minimum FS, the
finer search finds one that is less than or equal to it.  (As stated — for
a bare increase of `n_xc`, `n_yc` or `n_R` — the claim is false, because
`np.linspace` grids for different counts are not nested; see the
counterexample.) -/
theorem claim8_amended_subset_monotone :
    ∀ (H betaDeg c phiDeg gamma : ℝ) (n : ℕ)
      (xcminA xcmaxA ycminA ycmaxA : ℝ) (nxcA nycA : ℕ) (RminA RmaxA : ℝ) (nRA : ℕ)
      (xcminB xcmaxB ycminB ycmaxB : ℝ) (nxcB nycB : ℕ) (RminB RmaxB : ℝ) (nRB : ℕ),
      listSubset (linspace xcminA xcmaxA nxcA) (linspace xcminB xcmaxB nxcB) →
      listSubset (linspace ycminA ycmaxA nycA) (linspace ycminB ycmaxB nycB) →
      listSubset (linspace RminA RmaxA nRA) (linspace RminB RmaxB nRB) →
      fsLEopt
        ((searchCriticalCircle H betaDeg c phiDeg gamma n xcminB xcmaxB ycminB ycmaxB
          nxcB nycB RminB RmaxB nRB).FS)
        ((searchCriticalCircle H betaDeg c phiDeg gamma n xcminA xcmaxA ycminA ycmaxA
          nxcA nycA RminA RmaxA nRA).FS) := by
  intro H betaDeg c phiDeg gamma n xcminA xcmaxA ycminA ycmaxA nxcA nycA RminA RmaxA nRA
    xcminB xcmaxB ycminB ycmaxB nxcB nycB RminB RmaxB nRB hsubx hsuby hsubR
  intro v hv
  have heqA := searchCriticalCircle_eq_foldl H betaDeg c phiDeg gamma n xcminA xcmaxA
    ycminA ycmaxA nxcA nycA RminA RmaxA nRA
  have heqB := searchCriticalCircle_eq_foldl H betaDeg c phiDeg gamma n xcminB xcmaxB
    ycminB ycmaxB nxcB nycB RminB RmaxB nRB
  rcases search_inv (fun t =>
      bishopFsForCircle H betaDeg c phiDeg gamma t.1 t.2.1 t.2.2 n 60 (1e-4))
      (productList (linspace xcminA xcmaxA nxcA) (linspace ycminA ycmaxA nycA)
        (linspace RminA RmaxA nRA)) with
    ⟨haccA, _⟩ | ⟨v', t, l1, l2, haccA, hprocA, hftA, _, _⟩
  · rw [heqA, haccA] at hv
    simp at hv
  · rw [heqA, haccA] at hv
    have hv' : v' = v := by
      have h := hv
      have h2 : some v' = some v := h
      cases h2
      rfl
    subst hv'
    have htA : t ∈ productList (linspace xcminA xcmaxA nxcA) (linspace ycminA ycmaxA nycA)
        (linspace RminA RmaxA nRA) := by
      rw [hprocA]
      simp
    have htB : t ∈ productList (linspace xcminB xcmaxB nxcB) (linspace ycminB ycmaxB nycB)
        (linspace RminB RmaxB nRB) := by
      obtain ⟨h1, h2, h3⟩ := mem_productList.mp htA
      exact mem_productList.mpr ⟨hsubx _ h1, hsuby _ h2, hsubR _ h3⟩
    rcases search_inv (fun t =>
        bishopFsForCircle H betaDeg c phiDeg gamma t.1 t.2.1 t.2.2 n 60 (1e-4))
        (productList (linspace xcminB xcmaxB nxcB) (linspace ycminB ycmaxB nycB)
          (linspace RminB RmaxB nRB)) with
      ⟨haccB, hnoneB⟩ | ⟨w, u, m1, m2, haccB, hprocB, hftB, _, hminB⟩
    · have hnone : bishopFsForCircle H betaDeg c phiDeg gamma t.1 t.2.1 t.2.2
          n 60 (1e-4) = none := hnoneB t htB
      have hftA' : bishopFsForCircle H betaDeg c phiDeg gamma t.1 t.2.1 t.2.2
          n 60 (1e-4) = some v' := hftA
      rw [hnone] at hftA'
      simp at hftA'
    · refine ⟨w, ?_, ?_⟩
      · rw [heqB, haccB]
      · exact hminB t htB v' hftA

/-- Witness for the amended C8: the one-point grid `{-1/2} × {-1} × {2}`
is contained in the three-point grid over `xc ∈ [-1000.5, 999.5]` (same
`yc` and `R` grids), so the larger search's result is at least as
critical. -/
theorem claim8_witness :
    listSubset (linspace (-(1 / 2)) (-(1 / 2)) 1) (linspace (-(2001 / 2)) (1999 / 2) 3) ∧
    fsLEopt
      ((searchCriticalCircle 1 45 1 0 18 10 (-(2001 / 2)) (1999 / 2) (-1) (-1)
        3 1 2 2 1).FS)
      ((searchCriticalCircle 1 45 1 0 18 10 (-(1 / 2)) (-(1 / 2)) (-1) (-1)
        1 1 2 2 1).FS) := by
  have hsub : listSubset (linspace (-(1 / 2)) (-(1 / 2)) 1)
      (linspace (-(2001 / 2)) (1999 / 2) 3) := by
    rw [linspace_single, xcs3_eq]
    intro x hx
    rw [List.mem_singleton] at hx
    subst hx
    simp
  exact ⟨hsub, claim8_amended_subset_monotone 1 45 1 0 18 10
    (-(1 / 2)) (-(1 / 2)) (-1) (-1) 1 1 2 2 1
    (-(2001 / 2)) (1999 / 2) (-1) (-1) 3 1 2 2 1
    hsub (fun x hx => hx) (fun x hx => hx)⟩

/-- Counterexample for C9: the trial circle `xc = -1/2, yc = -10, R = 2`
over the slope `H = 1, beta = 45°` has its radius strictly smaller than
the distance from its center to every point of the ground surface, yet
geometry accepts it (its lower arc is inside the soil mass, the center
being below the surface) and an FS is computed — it is not rejected. -/
theorem claim9_counterexample :
    circleClearOfSurface (-(1 / 2)) (-10) 2 1 45 ∧
    (bishopFsForCircle 1 45 1 0 18 (-(1 / 2)) (-10) 2 10 60 (1e-4)).isSome = true := by
  constructor
  · intro x
    have h1 := surf145_nonneg x
    nlinarith [sq_nonneg (x - -(1 / 2))]
  · obtain ⟨v, _, hb⟩ := bishop_cex_eval (-10) (by norm_num)
    rw [hb]
    rfl

/-- Claim C9 (amended): a trial circle whose center lies on or above the
ground surface and whose radius is smaller than the minimum distance from
the center to the surface is rejected by geometry — no slices are
produced and the solver is never reached.  (As stated the claim is false:
for a center below the surface the same distance condition describes a
circle fully inside the soil mass, which geometry accepts; see the
counterexample.) -/
theorem claim9_amended_clear_above :
    ∀ (H betaDeg c phiDeg gamma xc yc R : ℝ) (n m : ℕ) (tol : ℝ),
      circleClearOfSurface xc yc R H betaDeg →
      centerAboveSurface yc H betaDeg →
      bishopFsForCircle H betaDeg c phiDeg gamma xc yc R n m tol = none :=
  fun H betaDeg c phiDeg gamma xc yc R n m tol hclear habove =>
    bishop_clear H betaDeg c phiDeg gamma xc yc R n m tol hclear habove

/-- Witness for the amended C9: the circle `xc = 0, yc = 10, R = 1` floats
above the slope `H = 1, beta = 45°` and is rejected. -/
theorem claim9_witness :
    bishopFsForCircle 1 45 10 30 18 0 10 1 25 60 (1e-4) = none := by
  apply claim9_amended_clear_above
  · intro x
    have h1 := surf145_le_one x
    have h2 := surf145_nonneg x
    have h3 : (0 : ℝ) ≤ 1 - slopeSurfaceY x 1 45 := by linarith
    have h4 : (0 : ℝ) ≤ 19 - slopeSurfaceY x 1 45 := by linarith
    nlinarith [mul_nonneg h3 h4, sq_nonneg (x - 0)]
  · intro x
    have := surf145_le_one x
    linarith

/-- Claim C10: the result record of the search either has `FS`, `xc`,
`yc`, `R` all unset ("not found") or all set; in the found case the FS is
strictly positive (every value the solver returns passed the positivity
check; finiteness is automatic in the real-number model) and the reported
`(xc, yc, R)` is one of the enumerated grid tuples. -/
theorem claim10_result_shape :
    ∀ (H betaDeg c phiDeg gamma : ℝ) (n : ℕ) (xc_min xc_max yc_min yc_max : ℝ)
      (n_xc n_yc : ℕ) (R_min R_max : ℝ) (n_R : ℕ),
      searchCriticalCircle H betaDeg c phiDeg gamma n xc_min xc_max yc_min yc_max
        n_xc n_yc R_min R_max n_R = ⟨none, none, none, none⟩ ∨
      ∃ v t, searchCriticalCircle H betaDeg c phiDeg gamma n xc_min xc_max yc_min
          yc_max n_xc n_yc R_min R_max n_R =
          ⟨some v, some t.1, some t.2.1, some t.2.2⟩ ∧
        0 < v ∧
        t ∈ productList (linspace xc_min xc_max n_xc) (linspace yc_min yc_max n_yc)
          (linspace R_min R_max n_R) := by
  intro H betaDeg c phiDeg gamma n xc_min xc_max yc_min yc_max n_xc n_yc R_min R_max n_R
  have heq := searchCriticalCircle_eq_foldl H betaDeg c phiDeg gamma n xc_min xc_max
    yc_min yc_max n_xc n_yc R_min R_max n_R
  rcases search_inv (fun t =>
      bishopFsForCircle H betaDeg c phiDeg gamma t.1 t.2.1 t.2.2 n 60 (1e-4))
      (productList (linspace xc_min xc_max n_xc) (linspace yc_min yc_max n_yc)
        (linspace R_min R_max n_R)) with
    ⟨hacc, _⟩ | ⟨v, t, l1, l2, hacc, hproc, hft, _, _⟩
  · left
    rw [heq, hacc]
  · right
    have hft' : bishopFsForCircle H betaDeg c phiDeg gamma t.1 t.2.1 t.2.2 n 60 (1e-4) =
        some v := hft
    refine ⟨v, t, by rw [heq, hacc], ?_, by rw [hproc]; simp⟩
    exact bishop_pos H betaDeg c phiDeg gamma t.1 t.2.1 t.2.2 n 60 (1e-4) v hft'

end SlopeStability
